import Mathlib

/-!
# Conversation engine of the report bot (`src/api/webhook.js`)

A shallow embedding of `handleEvent` and its helpers.  JavaScript strings are
Lean strings (sequences of code points), the values the handler reads and writes
are `JsVal`, a Firestore document is a field list `Doc`, and the three
collections together with the trace of issued effects form a `World`.
`handleEvent` is a function from a `World` to an `Outcome`: the world after the
effects issued so far and the exception, if one was thrown.  The batch `handler`
is modelled on the settlements of the promises it awaits.
-/

namespace Webhook

/-! ## JavaScript values -/

/-- The values that occur in the handler: `undefined`, numbers, strings, arrays
whose elements are strings or `undefined` (`none`), and timestamps (`new Date()`). -/
inductive JsVal where
  | undefined
  | num (n : Int)
  | str (s : String)
  | arr (xs : List (Option String))
  | time (t : Nat)
  deriving DecidableEq, Repr

/-- JavaScript truthiness (`!v`, `v || d`, `v && e`, `v ? a : b`). -/
def truthy : JsVal → Bool
  | .undefined => false
  | .num n => n != 0
  | .str s => s != ""
  | .arr _ => true
  | .time _ => true

/-- A payload value or array element as a `JsVal`: `none` is `undefined`. -/
def ofOpt : Option String → JsVal
  | none => .undefined
  | some s => .str s

/-- The operator `v || d` for `v` a string or `undefined` and `d` a string. -/
def orElse (v : Option String) (d : String) : String :=
  match v with
  | some s => if s = "" then d else s
  | none => d

/-- Template-literal conversion of a string-or-undefined value. -/
def tmpl : Option String → String
  | some s => s
  | none => "undefined"

/-! ## JavaScript strings -/

/-- The method `String.prototype.split` with a one-character separator, on code points. -/
def splitOnChar (sep : Char) : List Char → List (List Char)
  | [] => [[]]
  | c :: cs =>
    if c = sep then [] :: splitOnChar sep cs
    else
      match splitOnChar sep cs with
      | [] => [[c]]
      | h :: t => (c :: h) :: t

/-- The call `s.split(sep)` for a one-character string `sep`. -/
def jsSplit (sep : Char) (s : String) : List String :=
  (splitOnChar sep s.data).map String.mk

/-- Code points matched by the regular expression class `\s`, which are also
the ones removed by `trim` (WhiteSpace and LineTerminator). -/
def isJsSpace (c : Char) : Bool :=
  [9, 10, 11, 12, 13, 32, 0xa0, 0x1680, 0x2028, 0x2029, 0x202f, 0x205f, 0x3000, 0xfeff].contains c.toNat
    || (0x2000 ≤ c.toNat && c.toNat ≤ 0x200a)

/-- The method `String.prototype.trim`. -/
def jsTrim (s : String) : String :=
  String.mk ((s.data.dropWhile isJsSpace).reverse.dropWhile isJsSpace).reverse

/-- Splitting at maximal runs of `\s`: `cur` is the token being read (reversed),
`inSep` tells that the previous code point belonged to a separator run. -/
def splitSpaceRuns : List Char → List Char → Bool → List (List Char)
  | [], cur, _ => [cur.reverse]
  | c :: cs, cur, inSep =>
    if isJsSpace c then
      if inSep then splitSpaceRuns cs cur true
      else cur.reverse :: splitSpaceRuns cs [] true
    else splitSpaceRuns cs (c :: cur) false

/-- The call `text.split(/\s+/)`. -/
def jsSplitSpace (text : String) : List String :=
  (splitSpaceRuns text.data [] false).map String.mk

/-- Removal of every `-` (the global regular-expression replace by the empty string). -/
def stripDashes (s : String) : String :=
  String.mk (s.data.filter (fun c => c != '-'))

/-- The call `s.slice(a, b)` for `0 ≤ a ≤ b`. -/
def jsSlice (s : String) (a b : Nat) : String :=
  String.mk ((s.data.drop a).take (b - a))

/-- The call `s.replace(x, y)` for one-character strings: only the first match is replaced. -/
def replaceFirst (x y : Char) : List Char → List Char
  | [] => []
  | c :: cs => if c = x then y :: cs else c :: replaceFirst x y cs

/-- The method `Array.prototype.join(',')`: `undefined` elements are rendered as empty strings. -/
def jsJoin (xs : List (Option String)) : String :=
  String.intercalate "," (xs.map (fun o => o.getD ""))

/-! ## `decodeURIComponent` -/

/-- Exceptions that can leave `handleEvent`. -/
inductive JsError where
  | uriError
  | typeError
  | invalidData
  | notFound
  deriving DecidableEq, Repr

deriving instance DecidableEq for Except

/-- Value of a hexadecimal digit. -/
def hexVal (c : Char) : Option Nat :=
  let n := c.toNat
  if 48 ≤ n ∧ n ≤ 57 then some (n - 48)
  else if 65 ≤ n ∧ n ≤ 70 then some (n - 55)
  else if 97 ≤ n ∧ n ≤ 102 then some (n - 87)
  else none

/-- The octet written `%ab`. -/
def hexByte (a b : Char) : Option Nat :=
  match hexVal a, hexVal b with
  | some x, some y => some (16 * x + y)
  | _, _ => none

/-- The Decode loop of ECMAScript with an empty reserved set.  `pending` is the
number of UTF-8 continuation octets still expected, `acc` the bits gathered so
far and `lo` the least code point allowed for the sequence length (overlong
encodings, surrogates and values above `0x10FFFF` are malformed).  `none` is a
thrown `URIError`. -/
def decodeFrom : Nat → Nat → Nat → List Char → Option (List Char)
  | pending, _, _, [] => if pending = 0 then some [] else none
  | pending, acc, lo, c :: rest =>
    if c = '%' then
      match rest with
      | a :: b :: rest2 =>
        match hexByte a b with
        | none => none
        | some octet =>
          if pending = 0 then
            if octet < 0x80 then (decodeFrom 0 0 0 rest2).map (fun r => Char.ofNat octet :: r)
            else if 0xC0 ≤ octet ∧ octet < 0xE0 then decodeFrom 1 (octet % 32) 0x80 rest2
            else if 0xE0 ≤ octet ∧ octet < 0xF0 then decodeFrom 2 (octet % 16) 0x800 rest2
            else if 0xF0 ≤ octet ∧ octet < 0xF8 then decodeFrom 3 (octet % 8) 0x10000 rest2
            else none
          else if 0x80 ≤ octet ∧ octet < 0xC0 then
            let acc2 := acc * 64 + octet % 64
            if pending = 1 then
              if lo ≤ acc2 ∧ acc2 ≤ 0x10FFFF ∧ ¬ (0xD800 ≤ acc2 ∧ acc2 ≤ 0xDFFF) then
                (decodeFrom 0 0 0 rest2).map (fun r => Char.ofNat acc2 :: r)
              else none
            else decodeFrom (pending - 1) acc2 lo rest2
          else none
      | _ => none
    else if pending = 0 then (decodeFrom 0 0 0 rest).map (fun r => c :: r)
    else none

/-- The global function `decodeURIComponent`; `none` is a thrown `URIError`. -/
def decodeURIComponent (s : String) : Option String :=
  (decodeFrom 0 0 0 s.data).map String.mk

/-! ## Objects and documents -/

/-- Assignment `obj[k] = v` on a field list: the first binding of `k` is
replaced in place, a new key is appended. -/
def assign {β : Type} (k : String) (v : β) : List (String × β) → List (String × β)
  | [] => [(k, v)]
  | (k0, v0) :: rest => if k0 = k then (k, v) :: rest else (k0, v0) :: assign k v rest

/-- A Firestore document, or the object literal passed to `set`, `update`, `add`. -/
abbrev Doc := List (String × JsVal)

/-- Property read `doc.k`: `undefined` when the field is absent. -/
def field (d : Doc) (k : String) : JsVal :=
  match d.lookup k with
  | some v => v
  | none => .undefined

/-- Shallow field-level merge performed by `update`: every field of the patch
is assigned, the other fields are untouched. -/
def mergeDoc (d patch : Doc) : Doc :=
  patch.foldl (fun acc kv => assign kv.1 kv.2 acc) d

/-- A value Firestore accepts: `undefined` is rejected at any depth (the
client in `src/lib/firebase.js` does not enable `ignoreUndefinedProperties`). -/
def storable : JsVal → Bool
  | .undefined => false
  | .arr xs => xs.all Option.isSome
  | _ => true

/-- A write payload all of whose fields are storable. -/
def storableDoc (d : Doc) : Bool := d.all (fun kv => storable kv.2)

/-! ## `parseQueryString` (lines 179-190) -/

/-- The payload object built by `parseQueryString`. -/
abbrev Payload := List (String × String)

/-- The assignment `result[key] = value` on the plain object `result` (created by
an empty object literal).  The key `__proto__` is the accessor inherited from
`Object.prototype`, whose setter ignores a string value, so that assignment
creates no property; every other key becomes an own data property. -/
def setProperty (key value : String) (result : Payload) : Payload :=
  if key = "__proto__" then result else assign key value result

/-- The `for` loop over `vars`: a segment with at least two `=`-separated parts
assigns `result[pair[0]] = decodeURIComponent(pair[1])`, the others are skipped. -/
def parseLoop : List String → Payload → Except JsError Payload
  | [], result => .ok result
  | v :: vars, result =>
    match jsSplit '=' v with
    | k :: x :: _ =>
      match decodeURIComponent x with
      | some d => parseLoop vars (setProperty k d result)
      | none => .error .uriError
    | _ => parseLoop vars result

/-- The function `parseQueryString`; `query` is `none` when `event.postback.data` is missing. -/
def parseQueryString (query : Option String) : Except JsError Payload :=
  match query with
  | none => .ok []
  | some q => if q = "" then .ok [] else parseLoop (jsSplit '&' q) []

/-! ## The reference parser of the specification -/

/-- Reference, following the spec's words: the segments of the query (split on
`&`) that have at least two `=`-separated parts, each as its first and second part. -/
def keptSegments (q : String) : List (String × String) :=
  (jsSplit '&' q).filterMap (fun seg =>
    match jsSplit '=' seg with
    | k :: x :: _ => some (k, x)
    | _ => none)

/-- Reference, following the spec's words: every kept segment with its second part URL-decoded. -/
def decodeAll : List (String × String) → Except JsError (List (String × String))
  | [] => .ok []
  | (k, x) :: rest =>
    match decodeURIComponent x with
    | none => .error .uriError
    | some d =>
      match decodeAll rest with
      | .ok pairs => .ok ((k, d) :: pairs)
      | .error e => .error e

/-- Reference, following the spec's words: the key-value pairs of the parsed
query in segment order; the empty or missing string gives no pair. -/
def parseReference (query : Option String) : Except JsError (List (String × String)) :=
  match query with
  | none => .ok []
  | some q => if q = "" then .ok [] else decodeAll (keptSegments q)

/-- Reference, following the spec's words: the value of a key is that of the
latest pair with this key ("a later segment replacing an earlier one"). -/
def lastValue (pairs : List (String × String)) (k : String) : Option String :=
  pairs.reverse.lookup k

/-! ## The multi-select toggle (`toggle_item`, lines 85-88) -/

/-- The method `Array.prototype.indexOf`: index of the first element strictly
equal to `item`, or `-1`. -/
def indexOf {α : Type} [DecidableEq α] (item : α) (l : List α) : Int :=
  if l.indexOf item < l.length then (l.indexOf item : Int) else -1

/-- The list update of the `toggle_item` branch:
`idx = currentList.indexOf(item)`; `if (idx > -1) splice(idx, 1) else push(item)`. -/
def toggleItem {α : Type} [DecidableEq α] (item : α) (currentList : List α) : List α :=
  let idx := indexOf item currentList
  if idx > -1 then currentList.eraseIdx idx.toNat else currentList ++ [item]

/-! ## Reply payloads -/

/-- The `action` object of a button. -/
structure Action where
  type : String
  label : String
  data : String
  mode : Option String
  deriving DecidableEq, Repr

/-- The flex components the menus use. -/
inductive Component where
  | button (style : String) (color : Option String) (height : Option String) (action : Action)
  | separator (margin : String)
  | text (text : JsVal) (weight : Option String) (size : Option String) (color : String)
      (wrap : Option Bool)
  deriving DecidableEq, Repr

/-- A bubble: the contents of its header box, and the spacing and contents of its body box. -/
structure Bubble where
  header : List Component
  spacing : String
  body : List Component
  deriving DecidableEq, Repr

/-- A reply payload: a plain text message or a flex card. -/
inductive Message where
  | text (text : String)
  | flex (altText : String) (contents : Bubble)
  deriving DecidableEq, Repr

/-! ## Stores, effects and the world -/

/-- An effect issued by the handler, in the order of issue. -/
inductive Op where
  | stateSet (userId : String) (data : Doc)
  | stateUpdate (userId : String) (data : Doc)
  | stateDelete (userId : String)
  | userSet (userId : String) (data : Doc)
  | recordAdd (data : Doc)
  | reply (replyToken : String) (message : Message)
  deriving DecidableEq, Repr

/-- The three collections and the trace of effects issued so far. -/
structure World where
  states : String → Option Doc
  users : String → Option Doc
  records : List Doc
  trace : List Op

/-- The world reached and the exception thrown, if any. -/
structure Outcome where
  world : World
  error : Option JsError

/-- Sequencing of two awaited effects: the second runs only if the first did not throw. -/
def andThen (a b : World → Outcome) (w : World) : Outcome :=
  match a w with
  | ⟨w1, none⟩ => b w1
  | out => out

/-- A collection with the document at `k` replaced by `v`. -/
def upd (f : String → Option Doc) (k : String) (v : Option Doc) : String → Option Doc :=
  fun k2 => if k2 = k then v else f k2

/-- The world with one more issued effect on its trace. -/
def logOp (op : Op) (w : World) : World :=
  { w with trace := w.trace ++ [op] }

/-- Modelled from the spec: the state store adapter of section 4.2, `set(key, State)`
(full replace) on the `states` collection; the Firestore client itself is not
part of the sources.  As that client does, the write is rejected when the data
holds `undefined` (`storableDoc`). -/
def stateSet (userId : String) (data : Doc) (w : World) : Outcome :=
  if storableDoc data then
    ⟨{ logOp (.stateSet userId data) w with states := upd w.states userId (some data) }, none⟩
  else ⟨logOp (.stateSet userId data) w, some .invalidData⟩

/-- Modelled from the spec: the state store adapter of section 4.2,
`merge(key, partialState)`: shallow field-level update that fails if the document
is absent, or if the data holds `undefined`. -/
def stateUpdate (userId : String) (data : Doc) (w : World) : Outcome :=
  if storableDoc data then
    match w.states userId with
    | some d =>
      ⟨{ logOp (.stateUpdate userId data) w with
          states := upd w.states userId (some (mergeDoc d data)) }, none⟩
    | none => ⟨logOp (.stateUpdate userId data) w, some .notFound⟩
  else ⟨logOp (.stateUpdate userId data) w, some .invalidData⟩

/-- Modelled from the spec: the state store adapter of section 4.2, `delete(key)`;
deleting an absent key is not an error. -/
def stateDelete (userId : String) (w : World) : Outcome :=
  ⟨{ logOp (.stateDelete userId) w with states := upd w.states userId none }, none⟩

/-- Modelled from the spec: full replace of the profile document in the `users`
collection (section 6), rejected when the data holds `undefined`. -/
def userSet (userId : String) (data : Doc) (w : World) : Outcome :=
  if storableDoc data then
    ⟨{ logOp (.userSet userId data) w with users := upd w.users userId (some data) }, none⟩
  else ⟨logOp (.userSet userId data) w, some .invalidData⟩

/-- Modelled from the spec: append to the append-only `records` collection
(section 6), rejected when the data holds `undefined`. -/
def recordAdd (data : Doc) (w : World) : Outcome :=
  if storableDoc data then
    ⟨{ logOp (.recordAdd data) w with records := w.records ++ [data] }, none⟩
  else ⟨logOp (.recordAdd data) w, some .invalidData⟩

/-- The call `client.replyMessage(token, message)`: one reply payload handed to the transport. -/
def replyMessage (replyToken : String) (message : Message) (w : World) : Outcome :=
  ⟨logOp (.reply replyToken message) w, none⟩

/-- The function `checkUserIsRegistered` (lines 174-177). -/
def checkUserIsRegistered (userId : String) (w : World) : Bool :=
  (w.users userId).isSome

/-! ## Menu builders (lines 195-274) -/

/-- The clock readings the handler takes: `iso` is `now.toISOString()` after the
eight-hour shift of `replyDateMenu`, `now` is the value of `new Date()` stored in documents. -/
structure Env where
  iso : String
  now : Nat

/-- The header line shared by the menus. -/
def stepHeader (title : String) : Component :=
  .text (.str title) (some "bold") none "#1DB446" none

/-- The option list of `replyLocationMenu`. -/
def locationOptions : List String :=
  ["台灣本部", "中壢佈教所", "台中佈教所", "高雄佈教所", "雲林集會所", "花蓮集會所",
   "線上參加(直播)", "線上參加(VTR)", "其他"]

/-- The flex card of `replyLocationMenu`. -/
def locationMenu : Message :=
  .flex "請選擇地點"
    { header := [stepHeader "步驟 1/5：請選擇參加地點"]
      spacing := "sm"
      body := locationOptions.map (fun opt =>
        .button "secondary" none (some "sm")
          { type := "postback", label := opt, data := "action=select_loc&val=" ++ opt, mode := none }) }

/-- The function `replyLocationMenu`. -/
def replyLocationMenu (token : String) : World → Outcome :=
  replyMessage token locationMenu

/-- The flex card of `replyDateMenu`. -/
def dateMenu (env : Env) (prevLoc : Option String) : Message :=
  let todayStr := stripDashes (jsSlice env.iso 0 10)
  let todayDisplay := String.mk (replaceFirst '-' '/' (jsSlice env.iso 5 10).data)
  let baseData := "action=set_date&loc=" ++ tmpl prevLoc
  .flex "請選擇日期"
    { header := [stepHeader "步驟 2/5：請選擇實踐日期"]
      spacing := "md"
      body :=
        [ .button "primary" (some "#1DB446") none
            { type := "postback", label := "今天 (" ++ todayDisplay ++ ")",
              data := baseData ++ "&val=" ++ todayStr, mode := none },
          .button "secondary" none none
            { type := "datetimepicker", label := "選擇其他日期", data := baseData,
              mode := some "date" } ] }

/-- The function `replyDateMenu`. -/
def replyDateMenu (env : Env) (token : String) (prevLoc : Option String) : World → Outcome :=
  replyMessage token (dateMenu env prevLoc)

/-- The flex card of `replyCategoryMenu`. -/
def categoryMenu (prevLoc prevDate : String) : Message :=
  let baseData := "action=select_cat&loc=" ++ prevLoc ++ "&date=" ++ prevDate
  .flex "請選擇項目"
    { header := [stepHeader "步驟 3/5：請選擇登錄項目"]
      spacing := "md"
      body :=
        [ .button "primary" none none
            { type := "postback", label := "青年會行事/活動(含VTR)",
              data := baseData ++ "&val=青年會行事/活動(含VTR)", mode := none },
          .button "primary" none none
            { type := "postback", label := "個人實踐項目 (可複選)",
              data := baseData ++ "&val=個人實踐項目 (可複選)", mode := none } ] }

/-- The function `replyCategoryMenu`. -/
def replyCategoryMenu (token : String) (prevLoc prevDate : String) : World → Outcome :=
  replyMessage token (categoryMenu prevLoc prevDate)

/-- The option list of `replyItemMenu` for the activity category. -/
def activityOptions : List String :=
  ["回歸聖地親苑", "6/9靈尊教導院祈念未來", "7/2靈尊真導院祈念未來", "8/6真如靈祖祈念未來",
   "7/19真如開祖祈念未來", "夏期鍊成第一天(8-9月)", "夏期鍊成第二天(9-10月)", "演講大會(9-10月)",
   "蛇瀧研修說明會(11-12月)", "青年經親說明會(12-1月)", "幹部委員說明會(12-1月)",
   "蛇瀧研修實績確認者說明會", "親子一體運動會", "其他"]

/-- The option list of `replyItemMenu` for every other category. -/
def practiceOptions : List String :=
  ["度眾", "歡喜", "奉侍", "舉辦青年家庭集會", "參加集會", "接心", "參加法會", "參加青年會合",
   "參加會座(初座/菩提會/本會座)", "參加幹部委員研修", "參加青年經親研修", "參加幹部會合",
   "參加部門會合", "參加信仰心向上會合", "拜讀一如之道究道篇(全)", "拜讀真如苑歷史", "參加總部會",
   "參加總部會會後會", "回歸聖地親苑", "其他"]

/-- The options shown for a category. -/
def itemOptions (category : JsVal) : List String :=
  if category = .str "青年會行事/活動(含VTR)" then activityOptions else practiceOptions

/-- The button of one option of the item menu; `selectedList.includes(opt)` decides its styling. -/
def itemButton (selectedList : List (Option String)) (opt : String) : Component :=
  let isSelected : Bool := decide (some opt ∈ selectedList)
  .button (if isSelected then "primary" else "secondary")
    (some (if isSelected then "#1DB446" else "#aaaaaa")) (some "sm")
    { type := "postback", label := if isSelected then "✅ " ++ opt else opt,
      data := "action=toggle_item&val=" ++ opt, mode := none }

/-- The flex card of `replyItemMenu`. -/
def itemMenu (category : JsVal) (selectedList : List (Option String)) : Message :=
  .flex "請選擇細項"
    { header :=
        [ stepHeader "步驟 4/5：實踐項目 (可複選)",
          .text category none (some "xs") "#aaaaaa" (some true) ]
      spacing := "sm"
      body := (itemOptions category).map (itemButton selectedList) ++
        [ .separator "md",
          .button "link" none (some "sm")
            { type := "postback",
              label := "確認送出 (" ++ toString selectedList.length ++ "項)",
              data := "action=confirm_items", mode := none } ] }

/-- The function `replyItemMenu`. -/
def replyItemMenu (token : String) (category : JsVal) (selectedList : List (Option String)) :
    World → Outcome :=
  replyMessage token (itemMenu category selectedList)

/-! ## `handleEvent` (lines 32-170) -/

/-- The structured parameters of a postback (`event.postback.params`). -/
structure Params where
  date : Option String
  deriving DecidableEq, Repr

/-- The kind-specific part of an event: a postback, a text message, or anything else. -/
inductive EventBody where
  | postback (data : Option String) (params : Option Params)
  | textMessage (text : String)
  | other
  deriving DecidableEq, Repr

/-- An inbound event. -/
structure Event where
  userId : String
  replyToken : String
  body : EventBody
  deriving DecidableEq, Repr

/-- The date of the `set_date` branch (line 57):
`payload.val || (params && params.date ? params.date.replace(..) : '')`. -/
def resolveDate (val : Option String) (params : Option Params) : String :=
  orElse val
    (match params with
     | some ps =>
       match ps.date with
       | some d => if d = "" then "" else stripDashes d
       | none => ""
     | none => "")

/-- The array the `toggle_item` branch works on, `userState.temp_items || []`:
a falsy value gives the empty array, an array is itself, and any other truthy
value makes the following `indexOf`/`splice`/`push` calls throw a `TypeError`. -/
def currentListOf (v : JsVal) : Option (List (Option String)) :=
  match v with
  | .arr xs => some xs
  | other => if truthy other then none else some []

/-- The string `finalItems` of the `confirm_items` branch (line 99); `none` is the
`TypeError` of calling `join` on a non-empty string. -/
def finalItemsOf (v : JsVal) : Option String :=
  match v with
  | .arr xs => some (if xs.length > 0 then jsJoin xs else "無")
  | .str s => if s = "" then some "無" else none
  | _ => some "無"

/-- The session-timeout warning of the `toggle_item` guard. -/
def timeoutText : String := "⚠️ 頁面逾時，請重新輸入「實績回報」。"

/-- The reply of the `set_date` branch when no date is found. -/
def dateFailedText : String := "❌ 日期抓取失敗"

/-- The reply of the `confirm_items` branch. -/
def confirmText (finalItems : String) : String :=
  "已記錄項目：" ++ finalItems ++ "\n\n最後一步，請輸入實踐說明 (若無請輸入「無」)："

/-- The reply to the registration trigger of a registered user. -/
def alreadyRegisteredText : String := "您已經註冊過了，無需重複註冊。\n請直接點擊「實績回報」。"

/-- The registration instructions. -/
def registerPromptText : String :=
  "【歡迎新朋友】\n請直接輸入：\n部會 經名 姓名\n\n(例如：青年部 經親 王小明)"

/-- The reply to the report trigger of an unregistered user. -/
def notRegisteredText : String := "⚠️ 您尚未註冊。\n請先點選左側「青年會資訊註冊」完成資料登錄。"

/-- The welcome reply of a successful registration. -/
def welcomeText (name : String) : String :=
  "歡迎 " ++ name ++ "！註冊成功。🎉\n\n現在您可以點擊選單右側的「實績回報」開始使用。"

/-- The format-error reply of the registration branch. -/
def formatErrorText : String := "⚠️ 格式不對。\n請輸入三個詞，中間空格：\n部會 經名 姓名"

/-- The completion reply of the final step. -/
def completionText : String := "🎉 實績回報完成！資料已儲存。"

/-- The postback branch of `handleEvent` (lines 45-104) after the payload is parsed. -/
def handlePostback (env : Env) (userId replyToken : String) (userState : Doc)
    (payload : Payload) (params : Option Params) (w : World) : Outcome :=
  let action := payload.lookup "action"
  if action = some "select_loc" then
    replyDateMenu env replyToken (payload.lookup "val") w
  else if action = some "set_date" then
    let date := resolveDate (payload.lookup "val") params
    if date ≠ "" then
      let loc := orElse (payload.lookup "loc") "未知地點"
      replyCategoryMenu replyToken loc date w
    else replyMessage replyToken (.text dateFailedText) w
  else if action = some "select_cat" then
    let newState : Doc :=
      [ ("step", .num 4),
        ("location", .str (orElse (payload.lookup "loc") "未知")),
        ("date", .str (orElse (payload.lookup "date") "未知")),
        ("category", ofOpt (payload.lookup "val")),
        ("temp_items", .arr []) ]
    andThen (stateSet userId newState)
      (replyItemMenu replyToken (ofOpt (payload.lookup "val")) []) w
  else if action = some "toggle_item" then
    if !truthy (field userState "step") then
      replyMessage replyToken (.text timeoutText) w
    else
      let item := payload.lookup "val"
      match currentListOf (field userState "temp_items") with
      | none => ⟨w, some .typeError⟩
      | some list0 =>
        let currentList := toggleItem item list0
        andThen (stateUpdate userId [("temp_items", .arr currentList)])
          (replyItemMenu replyToken (field userState "category") currentList) w
  else if action = some "confirm_items" then
    if !truthy (field userState "step") then ⟨w, none⟩
    else
      match finalItemsOf (field userState "temp_items") with
      | none => ⟨w, some .typeError⟩
      | some finalItems =>
        andThen (stateUpdate userId [("step", .num 5), ("final_items", .str finalItems)])
          (replyMessage replyToken (.text (confirmText finalItems))) w
  else ⟨w, none⟩

/-- The text branch of `handleEvent` (lines 107-169); `text` is already trimmed. -/
def handleText (env : Env) (userId replyToken : String) (userState : Doc)
    (text : String) (w : World) : Outcome :=
  if text = "青年會資訊註冊" then
    if checkUserIsRegistered userId w then
      replyMessage replyToken (.text alreadyRegisteredText) w
    else
      andThen (stateSet userId [("step", .str "registering")])
        (replyMessage replyToken (.text registerPromptText)) w
  else if text = "實績回報" then
    if !checkUserIsRegistered userId w then
      replyMessage replyToken (.text notRegisteredText) w
    else replyLocationMenu replyToken w
  else if field userState "step" = .str "registering" then
    match jsSplitSpace text with
    | [p0, p1, p2] =>
      andThen
        (userSet userId
          [ ("uid", .str userId), ("ministry", .str p0), ("sutra_name", .str p1),
            ("name", .str p2), ("reg_date", .time env.now) ])
        (andThen (stateDelete userId)
          (replyMessage replyToken (.text (welcomeText p2)))) w
    | _ => replyMessage replyToken (.text formatErrorText) w
  else if field userState "step" = .num 5 then
    andThen
      (recordAdd
        [ ("uid", .str userId), ("location", field userState "location"),
          ("date", field userState "date"), ("category", field userState "category"),
          ("items", field userState "final_items"), ("description", .str text),
          ("created_at", .time env.now) ])
      (andThen (stateDelete userId)
        (replyMessage replyToken (.text completionText))) w
  else ⟨w, none⟩

/-- The state read at the start of `handleEvent` (lines 38-40):
`userSnap.exists ? userSnap.data() : {}`. -/
def loadState (userId : String) (w : World) : Doc :=
  match w.states userId with
  | some d => d
  | none => []

/-- The function `handleEvent`: the state is read once at the start
(`loadState`), then the event is dispatched. -/
def handleEvent (env : Env) (event : Event) (w : World) : Outcome :=
  let userId := event.userId
  let replyToken := event.replyToken
  let userState := loadState userId w
  match event.body with
  | .postback data params =>
    match parseQueryString data with
    | .ok payload => handlePostback env userId replyToken userState payload params w
    | .error e => ⟨w, some e⟩
  | .textMessage text => handleText env userId replyToken userState (jsTrim text) w
  | .other => ⟨w, none⟩

/-- Events handled one after another, each to completion before the next is
read; an exception ends the handling of its own event only. -/
def runEvents (env : Env) : List Event → World → World
  | [], w => w
  | e :: es, w => runEvents env es (handleEvent env e w).world

/-- A postback event without structured parameters. -/
def postbackEvent (userId replyToken data : String) : Event :=
  { userId := userId, replyToken := replyToken, body := .postback (some data) none }

/-- A text message event. -/
def textEvent (userId replyToken text : String) : Event :=
  { userId := userId, replyToken := replyToken, body := .textMessage text }

/-- The end-to-end run of the wizard by one user: location `A`, date `20240101`,
category `X`, items `I1`, `I2`, `I1` toggled, confirmation, description `desc`. -/
def scenario (userId replyToken : String) : List Event :=
  [ postbackEvent userId replyToken "action=select_loc&val=A",
    postbackEvent userId replyToken "action=set_date&val=20240101",
    postbackEvent userId replyToken "action=select_cat&val=X&loc=A&date=20240101",
    postbackEvent userId replyToken "action=toggle_item&val=I1",
    postbackEvent userId replyToken "action=toggle_item&val=I2",
    postbackEvent userId replyToken "action=toggle_item&val=I1",
    postbackEvent userId replyToken "action=confirm_items",
    textEvent userId replyToken "desc" ]

/-- The world with empty collections and an empty trace. -/
def emptyWorld : World :=
  { states := fun _ => none, users := fun _ => none, records := [], trace := [] }

/-! ## Runs and transitions -/

/-- The action carried by an event: the `action` key of the parsed payload of a
postback; a text message, any other event, and a postback whose data does not
parse carry none. -/
def actionOf (event : Event) : Option String :=
  match event.body with
  | .postback data _ =>
    match parseQueryString data with
    | .ok payload => payload.lookup "action"
    | .error _ => none
  | _ => none

/-- The effects issued while handling one event: what `handleEvent` adds to the trace. -/
def newOps (env : Env) (event : Event) (w : World) : List Op :=
  (handleEvent env event w).world.trace.drop w.trace.length

/-- Events handled one after another, each with its own clock readings and each
to completion before the next is read. -/
def runSteps : List (Env × Event) → World → World
  | [], w => w
  | step :: rest, w => runSteps rest (handleEvent step.1 step.2 w).world

/-- The worlds reached from `w0` by handling events one at a time. -/
inductive ReachableFrom (w0 : World) : World → Prop where
  | start : ReachableFrom w0 w0
  | step (env : Env) (event : Event) (w : World) :
      ReachableFrom w0 w → ReachableFrom w0 (handleEvent env event w).world

/-- The number of profile writes for a user in a trace. -/
def profileWrites (userId : String) (trace : List Op) : Nat :=
  trace.countP (fun op =>
    match op with
    | .userSet u _ => decide (u = userId)
    | _ => false)

/-- The record document built by the final step from the state `d0` (lines 156-164). -/
def recordOf (userId : String) (d0 : Doc) (text : String) (now : Nat) : Doc :=
  [ ("uid", .str userId), ("location", field d0 "location"),
    ("date", field d0 "date"), ("category", field d0 "category"),
    ("items", field d0 "final_items"), ("description", .str text),
    ("created_at", .time now) ]

/-- The outcomes `handleEvent` can have on an event in a world, one constructor per
path through the handler (`handleEvent_transition` proves that every run of
`handleEvent` is one of them). -/
inductive Transition (event : Event) (w : World) : Outcome → Prop where
  | silent (e : Option JsError) (he : e ≠ some .notFound) : Transition event w ⟨w, e⟩
  | replied (m : Message) :
      Transition event w
        ⟨{ states := w.states, users := w.users, records := w.records,
           trace := w.trace ++ [.reply event.replyToken m] }, none⟩
  | selected (loc date cat : String) (m : Message)
      (ha : actionOf event = some "select_cat") :
      Transition event w
        ⟨{ states := upd w.states event.userId (some
             [("step", .num 4), ("location", .str loc), ("date", .str date),
              ("category", .str cat), ("temp_items", .arr [])])
           users := w.users
           records := w.records
           trace := w.trace ++
             [ .stateSet event.userId
                 [("step", .num 4), ("location", .str loc), ("date", .str date),
                  ("category", .str cat), ("temp_items", .arr [])],
               .reply event.replyToken m ] }, none⟩
  | rejectedSet (d : Doc) (ha : actionOf event = some "select_cat") :
      Transition event w
        ⟨{ states := w.states, users := w.users, records := w.records,
           trace := w.trace ++ [.stateSet event.userId d] }, some .invalidData⟩
  | toggled (d0 : Doc) (l0 : List (Option String)) (item : Option String) (m : Message)
      (ha : actionOf event = some "toggle_item")
      (hs : w.states event.userId = some d0)
      (ht : truthy (field d0 "step") = true)
      (hl : currentListOf (field d0 "temp_items") = some l0) :
      Transition event w
        ⟨{ states := upd w.states event.userId
             (some (mergeDoc d0 [("temp_items", .arr (toggleItem item l0))]))
           users := w.users
           records := w.records
           trace := w.trace ++
             [ .stateUpdate event.userId [("temp_items", .arr (toggleItem item l0))],
               .reply event.replyToken m ] }, none⟩
  | rejectedUpdate (d0 : Doc) (l0 : List (Option String)) (item : Option String)
      (ha : actionOf event = some "toggle_item")
      (hs : w.states event.userId = some d0)
      (ht : truthy (field d0 "step") = true)
      (hl : currentListOf (field d0 "temp_items") = some l0) :
      Transition event w
        ⟨{ states := w.states, users := w.users, records := w.records,
           trace := w.trace ++
             [.stateUpdate event.userId [("temp_items", .arr (toggleItem item l0))]] },
         some .invalidData⟩
  | confirmed (d0 : Doc) (finalItems : String) (m : Message)
      (ha : actionOf event = some "confirm_items")
      (hs : w.states event.userId = some d0)
      (ht : truthy (field d0 "step") = true) :
      Transition event w
        ⟨{ states := upd w.states event.userId
             (some (mergeDoc d0 [("step", .num 5), ("final_items", .str finalItems)]))
           users := w.users
           records := w.records
           trace := w.trace ++
             [ .stateUpdate event.userId
                 [("step", .num 5), ("final_items", .str finalItems)],
               .reply event.replyToken m ] }, none⟩
  | registering (raw : String) (m : Message)
      (hb : event.body = .textMessage raw)
      (hu : w.users event.userId = none) :
      Transition event w
        ⟨{ states := upd w.states event.userId (some [("step", .str "registering")])
           users := w.users
           records := w.records
           trace := w.trace ++
             [ .stateSet event.userId [("step", .str "registering")],
               .reply event.replyToken m ] }, none⟩
  | registered (raw : String) (d0 : Doc) (profile : Doc) (m : Message)
      (hb : event.body = .textMessage raw)
      (hs : w.states event.userId = some d0)
      (hr : field d0 "step" = .str "registering") :
      Transition event w
        ⟨{ states := upd w.states event.userId none
           users := upd w.users event.userId (some profile)
           records := w.records
           trace := w.trace ++
             [ .userSet event.userId profile,
               .stateDelete event.userId,
               .reply event.replyToken m ] }, none⟩
  | recorded (raw : String) (d0 : Doc) (now : Nat) (m : Message)
      (hb : event.body = .textMessage raw)
      (hs : w.states event.userId = some d0)
      (h5 : field d0 "step" = .num 5)
      (hst : storableDoc (recordOf event.userId d0 (jsTrim raw) now) = true) :
      Transition event w
        ⟨{ states := upd w.states event.userId none
           users := w.users
           records := w.records ++ [recordOf event.userId d0 (jsTrim raw) now]
           trace := w.trace ++
             [ .recordAdd (recordOf event.userId d0 (jsTrim raw) now),
               .stateDelete event.userId,
               .reply event.replyToken m ] }, none⟩
  | rejectedAdd (raw : String) (r : Doc) (hb : event.body = .textMessage raw) :
      Transition event w
        ⟨{ states := w.states, users := w.users, records := w.records,
           trace := w.trace ++ [.recordAdd r] }, some .invalidData⟩

/-! ## The webhook `handler` (lines 12-29) -/

/-- How the promise returned by one `handleEvent` call settles. -/
inductive Settled where
  | fulfilled
  | rejected (err : JsError)
  deriving DecidableEq, Repr

/-- The body sent with the response: a fixed text, or the `message` of a caught error. -/
inductive Body where
  | text (s : String)
  | messageOf (err : JsError)
  deriving DecidableEq, Repr

/-- The response of the handler: `res.status(status).send(body)`. -/
structure Response where
  status : Nat
  body : Body
  deriving DecidableEq, Repr

/-- The settlement of `handleEvent` run alone on a world. -/
def settleOf (o : Outcome) : Settled :=
  match o.error with
  | none => .fulfilled
  | some e => .rejected e

/-- The promises created by `events.map(event => handleEvent(event))`: one call per
event of the batch, each started whatever becomes of the others. -/
def startAll (events : List Event) (handle : Event → Settled) : List Settled :=
  events.map handle

/-- The combinator `Promise.all`: it rejects with the reason of the first promise
that rejects, `order` listing the promises (by index) in the order in which they
settle, and fulfils when none of them rejects. -/
def promiseAll (promises : List Settled) (order : List Nat) : Settled :=
  match order.findSome? (fun i =>
      match promises.get? i with
      | some (.rejected err) => some err
      | _ => none) with
  | some err => .rejected err
  | none => .fulfilled

/-- The function `handler`: `GET` is answered `OK`; otherwise the events of the batch
are all started, and the answer is `200 OK` when `Promise.all` fulfils (or the
batch is empty) and `500` with the message of the caught error when it rejects. -/
def handler (method : String) (events : List Event) (handle : Event → Settled)
    (order : List Nat) : Response :=
  if method = "GET" then ⟨200, .text "OK"⟩
  else if events.length > 0 then
    match promiseAll (startAll events handle) order with
    | .fulfilled => ⟨200, .text "OK"⟩
    | .rejected err => ⟨500, .messageOf err⟩
  else ⟨200, .text "OK"⟩

/-! ## Button data of the menus -/

/-- The `data` string of a button; `none` for the other components. -/
def buttonData : Component → Option String
  | .button _ _ _ action => some action.data
  | _ => none

/-- The `data` strings of the buttons of a reply, in order. -/
def menuData : Message → List String
  | .flex _ contents => contents.body.filterMap buttonData
  | .text _ => []

/-- The characters of the query string that encodes a list of key-value pairs:
`k=v` segments joined by `&`. -/
def queryData : List (String × String) → List Char
  | [] => []
  | [(k, v)] => k.data ++ '=' :: v.data
  | (k, v) :: rest => k.data ++ '=' :: v.data ++ '&' :: queryData rest

/-- A string without the separators `&` and `=` and without `%`. -/
def plainText (s : String) : Prop :=
  ∀ c ∈ s.data, c ≠ '&' ∧ c ≠ '=' ∧ c ≠ '%'

instance (s : String) : Decidable (plainText s) := by
  unfold plainText
  infer_instance

/-! ## Lemmas on the toggle -/

theorem toggleItem_eq {α : Type} [DecidableEq α] (item : α) (l : List α) :
    toggleItem item l = if item ∈ l then l.erase item else l ++ [item] := by
  unfold toggleItem indexOf
  by_cases h : item ∈ l
  · have hlt : l.indexOf item < l.length := List.indexOf_lt_length.mpr h
    simp only [hlt, h, if_true]
    have : ((l.indexOf item : Int) > -1) := by omega
    simp only [this, if_true, Int.toNat_ofNat]
    exact List.eraseIdx_indexOf_eq_erase item l
  · have hlt : ¬ l.indexOf item < l.length := fun c => h (List.indexOf_lt_length.mp c)
    simp [hlt, h]

theorem filter_ne_erase {α : Type} [DecidableEq α] (item : α) (l : List α) :
    (l.erase item).filter (fun y => decide (y ≠ item)) = l.filter (fun y => decide (y ≠ item)) := by
  induction l with
  | nil => rfl
  | cons x xs ih =>
    by_cases hx : x = item
    · subst hx
      simp
    · have hb : (x == item) = false := by simpa using hx
      rw [List.erase_cons, hb]
      simp only [Bool.false_eq_true, if_false, List.filter_cons, ih]

theorem toggleItem_twice_absent {α : Type} [DecidableEq α] (item : α) (l : List α)
    (h : item ∉ l) : toggleItem item (toggleItem item l) = l := by
  rw [toggleItem_eq item l, if_neg h, toggleItem_eq, if_pos (by simp)]
  rw [List.erase_append_right _ h]
  simp

theorem toggleItem_twice_present {α : Type} [DecidableEq α] (item : α) (l : List α)
    (h : item ∈ l) (hc : l.count item ≤ 1) :
    toggleItem item (toggleItem item l) = l.erase item ++ [item] := by
  have hno : item ∉ l.erase item := by
    intro hmem
    have h1 : 0 < (l.erase item).count item := List.count_pos_iff.mpr hmem
    rw [List.count_erase_self] at h1
    omega
  rw [toggleItem_eq item l, if_pos h, toggleItem_eq, if_neg hno]

/-! ## Lemmas on documents -/

theorem field_assign {k : String} {v : JsVal} (d : Doc) (k2 : String) :
    field (assign k v d) k2 = if k2 = k then v else field d k2 := by
  induction d with
  | nil =>
    by_cases h : k2 = k
    · simp [assign, field, List.lookup, h]
    · have hb : (k2 == k) = false := by simpa using h
      simp [assign, field, List.lookup, h, hb]
  | cons kv rest ih =>
    obtain ⟨k0, v0⟩ := kv
    unfold field at ih ⊢
    by_cases h0 : k0 = k
    · subst h0
      by_cases h : k2 = k0
      · simp [assign, List.lookup, h]
      · have hb : (k2 == k0) = false := by simpa using h
        simp [assign, List.lookup, h, hb]
    · by_cases h2 : k2 = k0
      · subst h2
        simp [assign, List.lookup, h0]
      · have hb : (k2 == k0) = false := by simpa using h2
        simp only [assign, h0, if_false, List.lookup, hb]
        exact ih

theorem jsJoin_strings (ys : List String) :
    jsJoin (ys.map some) = String.intercalate "," ys := by
  simp [jsJoin, List.map_map, Function.comp_def]

/-! ## Lemmas on `parseQueryString` -/

theorem decodeFrom_plain (cs : List Char) (h : ∀ c ∈ cs, c ≠ '%') :
    decodeFrom 0 0 0 cs = some cs := by
  induction cs with
  | nil => simp [decodeFrom]
  | cons c rest ih =>
    have hc : c ≠ '%' := h c (List.mem_cons_self c rest)
    have hrest : ∀ x ∈ rest, x ≠ '%' := fun x hx => h x (List.mem_cons_of_mem c hx)
    unfold decodeFrom
    simp [hc, ih hrest]

theorem decodeURIComponent_plain (s : String) (h : ∀ c ∈ s.data, c ≠ '%') :
    decodeURIComponent s = some s := by
  simp [decodeURIComponent, decodeFrom_plain s.data h]

theorem splitOnChar_mem (sep : Char) (cs : List Char) :
    ∀ piece ∈ splitOnChar sep cs, ∀ c ∈ piece, c ∈ cs := by
  induction cs with
  | nil =>
    intro piece hp c hc
    simp [splitOnChar] at hp
    subst hp
    exact hc
  | cons x rest ih =>
    intro piece hp c hc
    unfold splitOnChar at hp
    by_cases hx : x = sep
    · simp only [hx, if_true, List.mem_cons] at hp
      rcases hp with hp | hp
      · subst hp
        simp at hc
      · exact List.mem_cons_of_mem x (ih piece hp c hc)
    · simp only [hx, if_false] at hp
      cases hsplit : splitOnChar sep rest with
      | nil =>
        rw [hsplit] at hp
        simp at hp
        subst hp
        simp at hc
        subst hc
        exact List.mem_cons_self _ _
      | cons p ps =>
        rw [hsplit] at hp
        simp only [List.mem_cons] at hp
        rcases hp with hp | hp
        · subst hp
          rcases List.mem_cons.mp hc with hc | hc
          · subst hc
            exact List.mem_cons_self _ _
          · exact List.mem_cons_of_mem x (ih p (by rw [hsplit]; exact List.mem_cons_self _ _) c hc)
        · exact List.mem_cons_of_mem x
            (ih piece (by rw [hsplit]; exact List.mem_cons_of_mem _ hp) c hc)

theorem jsSplit_plain (sep : Char) (s : String) (h : ∀ c ∈ s.data, c ≠ '%') :
    ∀ x ∈ jsSplit sep s, ∀ c ∈ x.data, c ≠ '%' := by
  intro x hx c hc
  unfold jsSplit at hx
  obtain ⟨piece, hpiece, rfl⟩ := List.mem_map.mp hx
  exact h c (splitOnChar_mem sep s.data piece hpiece c hc)

theorem parseLoop_plain (vars : List String) (h : ∀ v ∈ vars, ∀ c ∈ v.data, c ≠ '%') :
    ∀ result : Payload, ∃ payload, parseLoop vars result = .ok payload := by
  induction vars with
  | nil =>
    intro result
    exact ⟨result, rfl⟩
  | cons v rest ih =>
    intro result
    have hv : ∀ c ∈ v.data, c ≠ '%' := h v (List.mem_cons_self v rest)
    have hrest : ∀ u ∈ rest, ∀ c ∈ u.data, c ≠ '%' :=
      fun u hu => h u (List.mem_cons_of_mem v hu)
    unfold parseLoop
    split
    · rename_i k x tl hsplit
      have hx : x ∈ jsSplit '=' v := by
        rw [hsplit]
        simp
      rw [decodeURIComponent_plain x (jsSplit_plain '=' v hv x hx)]
      exact ih hrest _
    · exact ih hrest _

theorem parseQueryString_plain (q : String) (h : ∀ c ∈ q.data, c ≠ '%') :
    ∃ payload, parseQueryString (some q) = .ok payload := by
  unfold parseQueryString
  by_cases hq : q = ""
  · exact ⟨[], by simp [hq]⟩
  · simp only [hq, if_false]
    exact parseLoop_plain _ (jsSplit_plain '&' q h) []

/-! ## The claims -/

/-- C1 (as stated, refuted): toggling `"A"` twice in `["A", "B"]` gives `["B", "A"]`,
so the list after two toggles is not the list before: the toggled item has moved
to the end.  And in a list holding `"A"` twice, two toggles remove both
occurrences, so the membership of `"A"` is not restored. -/
theorem toggleItem_twice_reorders :
    toggleItem (some "A") (toggleItem (some "A") [some "A", some "B"]) = [some "B", some "A"] ∧
    toggleItem (some "A") (toggleItem (some "A") [some "A", some "B"]) ≠ [some "A", some "B"] ∧
    toggleItem (some "A") (toggleItem (some "A") [some "A", some "A"]) = [] := by
  decide

/-- C1 (amended): in a list holding the item at most once, two toggles of the item
restore the membership of every item and keep the other items in their relative
order; the list is unchanged when the item was absent, and when it was present
the result is the list with the item moved to the end. -/
theorem toggleItem_twice {α : Type} [DecidableEq α] (item : α) (l : List α)
    (h : l.count item ≤ 1) :
    (∀ y, y ∈ toggleItem item (toggleItem item l) ↔ y ∈ l) ∧
    (toggleItem item (toggleItem item l)).filter (fun y => decide (y ≠ item)) =
      l.filter (fun y => decide (y ≠ item)) ∧
    (item ∉ l → toggleItem item (toggleItem item l) = l) ∧
    (item ∈ l → toggleItem item (toggleItem item l) = l.erase item ++ [item]) := by
  by_cases hm : item ∈ l
  · have e := toggleItem_twice_present item l hm h
    refine ⟨?_, ?_, fun hn => absurd hm hn, fun _ => e⟩
    · intro y
      rw [e]
      by_cases hy : y = item
      · subst hy
        simp [hm]
      · simp [hy, List.mem_erase_of_ne hy]
    · rw [e, List.filter_append, filter_ne_erase]
      simp
  · have e := toggleItem_twice_absent item l hm
    refine ⟨?_, ?_, fun _ => e, fun hp => absurd hp hm⟩
    · intro y
      rw [e]
    · rw [e]

/-- Witness of `toggleItem_twice` at the list `["A", "B"]` and the item `"A"`. -/
theorem toggleItem_twice_witness :
    toggleItem (some "A") (toggleItem (some "A") [some "A", some "B"]) =
      [some "A", some "B"].erase (some "A") ++ [some "A"] :=
  (toggleItem_twice (some "A") [some "A", some "B"] (by decide)).2.2.2 (by decide)

/-- C2: the end-to-end scenario, from any world (in particular one in which the
user has no stored state).  After `select_loc`, `set_date`, `select_cat` the stored
state is exactly step 4 with location `A`, date `20240101`, category `X` and no
items; the three toggles give `temp_items` `[I1]`, `[I1, I2]`, `[I2]`;
`confirm_items` gives step 5 with `final_items` `I2`; the text `desc` appends
exactly one record (items `I2`, description `desc`), deletes the state and replies. -/
theorem end_to_end_scenario (env : Env) (w0 : World) (userId tok : String) :
    (runEvents env ((scenario userId tok).take 3) w0).states userId =
      some [("step", .num 4), ("location", .str "A"), ("date", .str "20240101"),
            ("category", .str "X"), ("temp_items", .arr [])] ∧
    (runEvents env ((scenario userId tok).take 4) w0).states userId =
      some [("step", .num 4), ("location", .str "A"), ("date", .str "20240101"),
            ("category", .str "X"), ("temp_items", .arr [some "I1"])] ∧
    (runEvents env ((scenario userId tok).take 5) w0).states userId =
      some [("step", .num 4), ("location", .str "A"), ("date", .str "20240101"),
            ("category", .str "X"), ("temp_items", .arr [some "I1", some "I2"])] ∧
    (runEvents env ((scenario userId tok).take 6) w0).states userId =
      some [("step", .num 4), ("location", .str "A"), ("date", .str "20240101"),
            ("category", .str "X"), ("temp_items", .arr [some "I2"])] ∧
    (runEvents env ((scenario userId tok).take 7) w0).states userId =
      some [("step", .num 5), ("location", .str "A"), ("date", .str "20240101"),
            ("category", .str "X"), ("temp_items", .arr [some "I2"]),
            ("final_items", .str "I2")] ∧
    (runEvents env ((scenario userId tok).take 7) w0).records = w0.records ∧
    (runEvents env (scenario userId tok) w0).records = w0.records ++
      [[("uid", .str userId), ("location", .str "A"), ("date", .str "20240101"),
        ("category", .str "X"), ("items", .str "I2"), ("description", .str "desc"),
        ("created_at", .time env.now)]] ∧
    (runEvents env (scenario userId tok) w0).states userId = none ∧
    (runEvents env (scenario userId tok) w0).trace =
      (runEvents env ((scenario userId tok).take 7) w0).trace ++
        [ .recordAdd [("uid", .str userId), ("location", .str "A"), ("date", .str "20240101"),
            ("category", .str "X"), ("items", .str "I2"), ("description", .str "desc"),
            ("created_at", .time env.now)],
          .stateDelete userId,
          .reply tok (.text completionText) ] := by
  have p1 : parseQueryString (some "action=select_loc&val=A") =
      .ok [("action", "select_loc"), ("val", "A")] := by decide
  have p2 : parseQueryString (some "action=set_date&val=20240101") =
      .ok [("action", "set_date"), ("val", "20240101")] := by decide
  have p3 : parseQueryString (some "action=select_cat&val=X&loc=A&date=20240101") =
      .ok [("action", "select_cat"), ("val", "X"), ("loc", "A"), ("date", "20240101")] := by
    decide
  have p4 : parseQueryString (some "action=toggle_item&val=I1") =
      .ok [("action", "toggle_item"), ("val", "I1")] := by decide
  have p5 : parseQueryString (some "action=toggle_item&val=I2") =
      .ok [("action", "toggle_item"), ("val", "I2")] := by decide
  have p6 : parseQueryString (some "action=confirm_items") =
      .ok [("action", "confirm_items")] := by decide
  have t1 : toggleItem (some "I1") [] = [some "I1"] := by decide
  have t2 : toggleItem (some "I2") [some "I1"] = [some "I1", some "I2"] := by decide
  have t3 : toggleItem (some "I1") [some "I1", some "I2"] = [some "I2"] := by decide
  have j1 : jsJoin [some "I2"] = "I2" := by decide
  have tr : jsTrim "desc" = "desc" := by decide
  refine ⟨?_, ?_, ?_, ?_, ?_, ?_, ?_, ?_, ?_⟩ <;>
  simp [scenario, runEvents, handleEvent, postbackEvent, textEvent, p1, p2, p3, p4, p5, p6,
    handlePostback, handleText, replyDateMenu, replyMessage, logOp, resolveDate, orElse,
    replyCategoryMenu, andThen, stateSet, storableDoc, storable, ofOpt, replyItemMenu, upd,
    loadState, field, truthy, currentListOf, finalItemsOf, t1, t2, t3, j1, tr, stateUpdate,
    stateDelete, recordAdd, mergeDoc, assign, List.lookup]

/-- C3 (as stated, refuted): with an empty `temp_items` the handler stores the
source's sentinel `無` in `final_items`, which is not the string `none`. -/
theorem confirm_items_sentinel_literal :
    ((handleEvent ⟨"2024-01-01T08:00:00.000Z", 0⟩ (postbackEvent "U1" "T1" "action=confirm_items")
        { emptyWorld with
          states := upd emptyWorld.states "U1" (some [("step", .num 4), ("temp_items", .arr [])]) }
      ).world.states "U1").map (fun d => field d "final_items") = some (.str "無") ∧
    JsVal.str "無" ≠ JsVal.str "none" := by
  decide

/-- C3 (amended): for a state with a truthy step whose `temp_items` is absent or a
list of strings, a `confirm_items` postback issues exactly the merge of
`step = 5` and `final_items = F` followed by the reply, where `F` is the items
joined with `,` in list order when there is at least one (so `A,B` for `A`, `B`)
and the sentinel `無` otherwise; the merged document has these two fields and
every other field as before. -/
theorem confirm_items_merges (env : Env) (w : World) (userId replyToken : String)
    (data : Option String) (params : Option Params) (payload : Payload) (d : Doc)
    (items : Option (List String))
    (hparse : parseQueryString data = .ok payload)
    (hact : payload.lookup "action" = some "confirm_items")
    (hstate : w.states userId = some d)
    (hstep : truthy (field d "step") = true)
    (htemp : field d "temp_items" =
      (match items with
       | some ys => .arr (ys.map some)
       | none => .undefined)) :
    (handleEvent env ⟨userId, replyToken, .postback data params⟩ w =
      ⟨{ states := upd w.states userId (some (mergeDoc d
            [("step", .num 5),
             ("final_items", .str (match items with
               | some (y :: ys) => String.intercalate "," (y :: ys)
               | _ => "無"))]))
         users := w.users
         records := w.records
         trace := w.trace ++
           [ .stateUpdate userId
               [("step", .num 5),
                ("final_items", .str (match items with
                  | some (y :: ys) => String.intercalate "," (y :: ys)
                  | _ => "無"))],
             .reply replyToken (.text (confirmText (match items with
               | some (y :: ys) => String.intercalate "," (y :: ys)
               | _ => "無"))) ] }, none⟩) ∧
    (∀ F : String, ∀ k : String,
      field (mergeDoc d [("step", .num 5), ("final_items", .str F)]) k =
        if k = "final_items" then .str F else if k = "step" then .num 5 else field d k) ∧
    String.intercalate "," ["A", "B"] = "A,B" := by
  refine ⟨?_, ?_, by decide⟩
  · cases items with
    | none =>
      simp [handleEvent, hparse, handlePostback, hact, loadState, hstate, hstep, htemp,
        finalItemsOf, andThen, stateUpdate, storableDoc, storable, replyMessage, logOp]
    | some ys =>
      cases ys with
      | nil =>
        simp [handleEvent, hparse, handlePostback, hact, loadState, hstate, hstep, htemp,
          finalItemsOf, andThen, stateUpdate, storableDoc, storable, replyMessage, logOp]
      | cons y ys =>
        have hj := jsJoin_strings (y :: ys)
        simp only [List.map_cons] at hj
        simp [handleEvent, hparse, handlePostback, hact, loadState, hstate, hstep, htemp,
          finalItemsOf, andThen, stateUpdate, storableDoc, storable, replyMessage, logOp, hj]
  · intro F k
    simp [mergeDoc, field_assign]

/-- Witness of `confirm_items_merges`: the state with step 4 and items `A`, `B`. -/
theorem confirm_items_merges_witness :
    handleEvent ⟨"2024-01-01T08:00:00.000Z", 0⟩ (postbackEvent "U1" "T1" "action=confirm_items")
      { emptyWorld with
        states := upd emptyWorld.states "U1"
          (some [("step", .num 4), ("temp_items", .arr [some "A", some "B"])]) } =
      ⟨{ states := upd (upd emptyWorld.states "U1"
            (some [("step", .num 4), ("temp_items", .arr [some "A", some "B"])])) "U1"
            (some (mergeDoc [("step", .num 4), ("temp_items", .arr [some "A", some "B"])]
              [("step", .num 5), ("final_items", .str "A,B")]))
         users := emptyWorld.users
         records := []
         trace :=
           [ .stateUpdate "U1" [("step", .num 5), ("final_items", .str "A,B")],
             .reply "T1" (.text (confirmText "A,B")) ] }, none⟩ :=
  (confirm_items_merges ⟨"2024-01-01T08:00:00.000Z", 0⟩
    { emptyWorld with
      states := upd emptyWorld.states "U1"
        (some [("step", .num 4), ("temp_items", .arr [some "A", some "B"])]) }
    "U1" "T1" (some "action=confirm_items") none [("action", "confirm_items")]
    [("step", .num 4), ("temp_items", .arr [some "A", some "B"])] (some ["A", "B"])
    (by decide) (by decide) (by decide) (by decide) (by decide)).1

/-- C4 (code at the failing input): for a user with no stored state the
`toggle_item` guard sends the session-timeout warning and nothing else, while the
`confirm_items` guard returns without any effect: no reply is sent.  Neither
writes to the state store, and the state stays absent. -/
theorem confirm_items_stale_sends_no_reply :
    (handleEvent ⟨"2024-01-01T08:00:00.000Z", 0⟩
        (postbackEvent "U1" "T1" "action=toggle_item&val=I1") emptyWorld).world.trace =
      [.reply "T1" (.text timeoutText)] ∧
    (handleEvent ⟨"2024-01-01T08:00:00.000Z", 0⟩
        (postbackEvent "U1" "T1" "action=toggle_item&val=I1") emptyWorld).world.states "U1" = none ∧
    (handleEvent ⟨"2024-01-01T08:00:00.000Z", 0⟩
        (postbackEvent "U1" "T1" "action=confirm_items") emptyWorld).world.trace = [] ∧
    (handleEvent ⟨"2024-01-01T08:00:00.000Z", 0⟩
        (postbackEvent "U1" "T1" "action=confirm_items") emptyWorld).world.states "U1" = none ∧
    (handleEvent ⟨"2024-01-01T08:00:00.000Z", 0⟩
        (postbackEvent "U1" "T1" "action=confirm_items") emptyWorld).error = none := by
  decide

/-- C5 (as stated, refuted): in step `registering`, the text of the registration
trigger is a single token, yet for an unregistered user the handler writes the
state store (`set` of the registering state) and replies with the registration
instructions, not with the format error. -/
theorem registering_trigger_text_writes_state :
    jsSplitSpace (jsTrim "青年會資訊註冊") = ["青年會資訊註冊"] ∧
    (handleEvent ⟨"2024-01-01T08:00:00.000Z", 0⟩ (textEvent "U1" "T1" "青年會資訊註冊")
        { emptyWorld with
          states := upd emptyWorld.states "U1" (some [("step", .str "registering")]) }
      ).world.trace =
      [ .stateSet "U1" [("step", .str "registering")],
        .reply "T1" (.text registerPromptText) ] := by
  decide

/-- C5 (amended): in step `registering`, a trimmed text of exactly three
whitespace-separated tokens writes exactly one profile made of them in order,
then deletes the state and sends the welcome; a trimmed text with any other number
of tokens that is neither trigger phrase gets the format-error reply and nothing
is written. -/
theorem registering_text (env : Env) (w : World) (userId tok raw : String) (d : Doc)
    (hstate : w.states userId = some d)
    (hstep : field d "step" = .str "registering") :
    (∀ p0 p1 p2 : String, jsSplitSpace (jsTrim raw) = [p0, p1, p2] →
      handleEvent env (textEvent userId tok raw) w =
        ⟨{ states := upd w.states userId none
           users := upd w.users userId (some
             [ ("uid", .str userId), ("ministry", .str p0), ("sutra_name", .str p1),
               ("name", .str p2), ("reg_date", .time env.now) ])
           records := w.records
           trace := w.trace ++
             [ .userSet userId
                 [ ("uid", .str userId), ("ministry", .str p0), ("sutra_name", .str p1),
                   ("name", .str p2), ("reg_date", .time env.now) ],
               .stateDelete userId,
               .reply tok (.text (welcomeText p2)) ] }, none⟩) ∧
    ((jsSplitSpace (jsTrim raw)).length ≠ 3 →
      jsTrim raw ≠ "青年會資訊註冊" → jsTrim raw ≠ "實績回報" →
      handleEvent env (textEvent userId tok raw) w =
        ⟨{ states := w.states, users := w.users, records := w.records,
           trace := w.trace ++ [.reply tok (.text formatErrorText)] }, none⟩) := by
  constructor
  · intro p0 p1 p2 hsplit
    have hlen : (jsSplitSpace (jsTrim raw)).length = 3 := by rw [hsplit]; rfl
    have h1 : jsTrim raw ≠ "青年會資訊註冊" := by
      intro h
      rw [h] at hlen
      revert hlen
      decide
    have h2 : jsTrim raw ≠ "實績回報" := by
      intro h
      rw [h] at hlen
      revert hlen
      decide
    simp [handleEvent, textEvent, handleText, h1, h2, loadState, hstate, hstep, hsplit, andThen,
      userSet, storableDoc, storable, stateDelete, replyMessage, logOp]
  · intro hlen h1 h2
    have hne : ∀ p0 p1 p2 : String, jsSplitSpace (jsTrim raw) ≠ [p0, p1, p2] := by
      intro p0 p1 p2 hsplit
      apply hlen
      rw [hsplit]
      rfl
    unfold handleEvent textEvent handleText
    simp only [h1, h2, loadState, hstate, hstep, if_false, if_true]
    simp [replyMessage, logOp]

/-- Witness of `registering_text`: the text of the in-source example, three tokens. -/
theorem registering_text_witness :
    handleEvent ⟨"2024-01-01T08:00:00.000Z", 7⟩ (textEvent "U1" "T1" "青年部 經親 王小明")
      { emptyWorld with
        states := upd emptyWorld.states "U1" (some [("step", .str "registering")]) } =
      ⟨{ states := upd (upd emptyWorld.states "U1" (some [("step", .str "registering")])) "U1" none
         users := upd emptyWorld.users "U1" (some
           [ ("uid", .str "U1"), ("ministry", .str "青年部"), ("sutra_name", .str "經親"),
             ("name", .str "王小明"), ("reg_date", .time 7) ])
         records := []
         trace :=
           [ .userSet "U1"
               [ ("uid", .str "U1"), ("ministry", .str "青年部"), ("sutra_name", .str "經親"),
                 ("name", .str "王小明"), ("reg_date", .time 7) ],
             .stateDelete "U1",
             .reply "T1" (.text (welcomeText "王小明")) ] }, none⟩ :=
  (registering_text ⟨"2024-01-01T08:00:00.000Z", 7⟩
    { emptyWorld with
      states := upd emptyWorld.states "U1" (some [("step", .str "registering")]) }
    "U1" "T1" "青年部 經親 王小明" [("step", .str "registering")]
    (by decide) (by decide)).1 "青年部" "經親" "王小明" (by decide)

/-- C6: a user without a profile who sends the report trigger gets the
not-registered reply; that reply is the only effect, so neither the state store
nor the profiles nor the records are written, whatever the stored state. -/
theorem report_trigger_unregistered (env : Env) (w : World) (userId tok raw : String)
    (htext : jsTrim raw = "實績回報") (hno : w.users userId = none) :
    handleEvent env (textEvent userId tok raw) w =
      ⟨{ states := w.states, users := w.users, records := w.records,
         trace := w.trace ++ [.reply tok (.text notRegisteredText)] }, none⟩ := by
  have hne : ("實績回報" : String) ≠ "青年會資訊註冊" := by decide
  simp [handleEvent, textEvent, handleText, htext, hne, checkUserIsRegistered, hno,
    replyMessage, logOp]

/-- Witness of `report_trigger_unregistered`: the empty world, a padded trigger text. -/
theorem report_trigger_unregistered_witness :
    handleEvent ⟨"2024-01-01T08:00:00.000Z", 0⟩ (textEvent "U1" "T1" " 實績回報 ") emptyWorld =
      ⟨{ states := emptyWorld.states, users := emptyWorld.users, records := [],
         trace := [.reply "T1" (.text notRegisteredText)] }, none⟩ :=
  report_trigger_unregistered ⟨"2024-01-01T08:00:00.000Z", 0⟩ emptyWorld "U1" "T1" " 實績回報 "
    (by decide) rfl

/-- C7 (as stated, refuted): a `select_cat` postback carrying `val=X`, `loc=` and
`date=` (empty `L` and `D`) stores the placeholder `未知` as location and date,
not the empty strings it carried. -/
theorem select_cat_empty_loc_placeholder :
    parseQueryString (some "action=select_cat&val=X&loc=&date=") =
      .ok [("action", "select_cat"), ("val", "X"), ("loc", ""), ("date", "")] ∧
    (handleEvent ⟨"2024-01-01T08:00:00.000Z", 0⟩
        (postbackEvent "U1" "T1" "action=select_cat&val=X&loc=&date=") emptyWorld
      ).world.states "U1" =
      some [("step", .num 4), ("location", .str "未知"), ("date", .str "未知"),
            ("category", .str "X"), ("temp_items", .arr [])] := by
  decide

/-- C7 (amended): a `select_cat` postback carrying `val=C` replaces the stored
state, whatever it was, by exactly step 4 with category `C`, no items, and as
location and date the carried `loc` and `date`, or the placeholder `未知` where
the carried value is missing or empty; so with non-empty `loc=L`, `date=D` the
stored state is exactly step 4, location `L`, date `D`, category `C`, no items.
The reply is the item menu of `C`, in which every option button has the
unselected styling. -/
theorem select_cat_overwrites (env : Env) (w : World) (userId tok : String)
    (data : Option String) (params : Option Params) (payload : Payload) (C : String)
    (hparse : parseQueryString data = .ok payload)
    (hact : payload.lookup "action" = some "select_cat")
    (hval : payload.lookup "val" = some C) :
    handleEvent env ⟨userId, tok, .postback data params⟩ w =
      ⟨{ states := upd w.states userId (some
           [("step", .num 4), ("location", .str (orElse (payload.lookup "loc") "未知")),
            ("date", .str (orElse (payload.lookup "date") "未知")), ("category", .str C),
            ("temp_items", .arr [])])
         users := w.users
         records := w.records
         trace := w.trace ++
           [ .stateSet userId
               [("step", .num 4), ("location", .str (orElse (payload.lookup "loc") "未知")),
                ("date", .str (orElse (payload.lookup "date") "未知")), ("category", .str C),
                ("temp_items", .arr [])],
             .reply tok (itemMenu (.str C) []) ] }, none⟩ ∧
    (∀ L D : String, payload.lookup "loc" = some L → payload.lookup "date" = some D →
      L ≠ "" → D ≠ "" →
      (handleEvent env ⟨userId, tok, .postback data params⟩ w).world.states userId =
        some [("step", .num 4), ("location", .str L), ("date", .str D), ("category", .str C),
              ("temp_items", .arr [])]) ∧
    (∀ v : Option String, (v = none ∨ v = some "") → orElse v "未知" = "未知") ∧
    (∀ opt : String, itemButton [] opt =
      .button "secondary" (some "#aaaaaa") (some "sm")
        { type := "postback", label := opt, data := "action=toggle_item&val=" ++ opt,
          mode := none }) := by
  have hrun : handleEvent env ⟨userId, tok, .postback data params⟩ w =
      ⟨{ states := upd w.states userId (some
           [("step", .num 4), ("location", .str (orElse (payload.lookup "loc") "未知")),
            ("date", .str (orElse (payload.lookup "date") "未知")), ("category", .str C),
            ("temp_items", .arr [])])
         users := w.users
         records := w.records
         trace := w.trace ++
           [ .stateSet userId
               [("step", .num 4), ("location", .str (orElse (payload.lookup "loc") "未知")),
                ("date", .str (orElse (payload.lookup "date") "未知")), ("category", .str C),
                ("temp_items", .arr [])],
             .reply tok (itemMenu (.str C) []) ] }, none⟩ := by
    simp [handleEvent, hparse, handlePostback, hact, hval, ofOpt,
      andThen, stateSet, storableDoc, storable, replyItemMenu, replyMessage, logOp]
  refine ⟨hrun, ?_, ?_, ?_⟩
  · intro L D hloc hdate hL hD
    rw [hrun]
    simp [upd, hloc, hdate, orElse, hL, hD]
  · intro v hv
    rcases hv with hv | hv <;> simp [hv, orElse]
  · intro opt
    simp [itemButton]

/-- Witness of `select_cat_overwrites`: a user in step 5 with leftover `final_items`. -/
theorem select_cat_overwrites_witness :
    (handleEvent ⟨"2024-01-01T08:00:00.000Z", 0⟩
        (postbackEvent "U1" "T1" "action=select_cat&val=X&loc=A&date=20240101")
        { emptyWorld with
          states := upd emptyWorld.states "U1"
            (some [("step", .num 5), ("final_items", .str "I9")]) }
      ).world.states "U1" =
      some [("step", .num 4), ("location", .str "A"), ("date", .str "20240101"),
            ("category", .str "X"), ("temp_items", .arr [])] :=
  (select_cat_overwrites ⟨"2024-01-01T08:00:00.000Z", 0⟩
    { emptyWorld with
      states := upd emptyWorld.states "U1"
        (some [("step", .num 5), ("final_items", .str "I9")]) }
    "U1" "T1" (some "action=select_cat&val=X&loc=A&date=20240101") none
    [("action", "select_cat"), ("val", "X"), ("loc", "A"), ("date", "20240101")]
    "X" (by decide) (by decide) (by decide)).2.1 "A" "20240101" (by decide) (by decide)
    (by decide) (by decide)

/-- C8 (as stated, refuted): in step 5 the text of the report trigger is not taken
as the description: no record is written and the state is kept.  And a step-5
state without location, date and category (reached by `confirm_items` from step
`registering`) makes the record write fail: nothing is stored, the state is kept
and no reply is sent. -/
theorem step5_text_not_always_recorded :
    ((handleEvent ⟨"2024-01-01T08:00:00.000Z", 0⟩ (textEvent "U1" "T1" "實績回報")
        { emptyWorld with
          states := upd emptyWorld.states "U1"
            (some [("step", .num 5), ("location", .str "A"), ("date", .str "20240101"),
                   ("category", .str "X"), ("temp_items", .arr [some "I2"]),
                   ("final_items", .str "I2")]) }).world.records = [] ∧
     (handleEvent ⟨"2024-01-01T08:00:00.000Z", 0⟩ (textEvent "U1" "T1" "實績回報")
        { emptyWorld with
          states := upd emptyWorld.states "U1"
            (some [("step", .num 5), ("location", .str "A"), ("date", .str "20240101"),
                   ("category", .str "X"), ("temp_items", .arr [some "I2"]),
                   ("final_items", .str "I2")]) }).world.trace =
        [.reply "T1" (.text notRegisteredText)]) ∧
    ((runEvents ⟨"2024-01-01T08:00:00.000Z", 0⟩
        [ textEvent "U1" "T1" "青年會資訊註冊",
          postbackEvent "U1" "T2" "action=confirm_items" ] emptyWorld).states "U1" =
        some [("step", .num 5), ("final_items", .str "無")] ∧
     (runEvents ⟨"2024-01-01T08:00:00.000Z", 0⟩
        [ textEvent "U1" "T1" "青年會資訊註冊",
          postbackEvent "U1" "T2" "action=confirm_items",
          textEvent "U1" "T3" "desc" ] emptyWorld).records = [] ∧
     (runEvents ⟨"2024-01-01T08:00:00.000Z", 0⟩
        [ textEvent "U1" "T1" "青年會資訊註冊",
          postbackEvent "U1" "T2" "action=confirm_items",
          textEvent "U1" "T3" "desc" ] emptyWorld).states "U1" =
        some [("step", .num 5), ("final_items", .str "無")]) := by
  decide

/-- C8 (amended): in step 5, for a trimmed text `t` that is neither trigger phrase
and a state whose location, date, category and `final_items` are present, the
handler appends exactly one record with these four values and description `t`,
then deletes the state and sends the completion reply. -/
theorem step5_text_records (env : Env) (w : World) (userId tok raw : String) (d : Doc)
    (hstate : w.states userId = some d)
    (hstep : field d "step" = .num 5)
    (h1 : jsTrim raw ≠ "青年會資訊註冊") (h2 : jsTrim raw ≠ "實績回報")
    (hloc : storable (field d "location") = true)
    (hdate : storable (field d "date") = true)
    (hcat : storable (field d "category") = true)
    (hfin : storable (field d "final_items") = true) :
    handleEvent env (textEvent userId tok raw) w =
      ⟨{ states := upd w.states userId none
         users := w.users
         records := w.records ++
           [[ ("uid", .str userId), ("location", field d "location"),
              ("date", field d "date"), ("category", field d "category"),
              ("items", field d "final_items"), ("description", .str (jsTrim raw)),
              ("created_at", .time env.now) ]]
         trace := w.trace ++
           [ .recordAdd
               [ ("uid", .str userId), ("location", field d "location"),
                 ("date", field d "date"), ("category", field d "category"),
                 ("items", field d "final_items"), ("description", .str (jsTrim raw)),
                 ("created_at", .time env.now) ],
             .stateDelete userId,
             .reply tok (.text completionText) ] }, none⟩ := by
  have s1 : ∀ t : String, storable (.str t) = true := fun _ => rfl
  have s2 : ∀ t : Nat, storable (.time t) = true := fun _ => rfl
  have hst : storableDoc
      [ ("uid", .str userId), ("location", field d "location"),
        ("date", field d "date"), ("category", field d "category"),
        ("items", field d "final_items"), ("description", .str (jsTrim raw)),
        ("created_at", .time env.now) ] = true := by
    simp [storableDoc, hloc, hdate, hcat, hfin, s1, s2]
  simp [handleEvent, textEvent, handleText, h1, h2, loadState, hstate, hstep, andThen,
    recordAdd, hst, stateDelete, replyMessage, logOp]

/-- Witness of `step5_text_records`: the step-5 state of the end-to-end scenario. -/
theorem step5_text_records_witness :
    handleEvent ⟨"2024-01-01T08:00:00.000Z", 3⟩ (textEvent "U1" "T1" " desc ")
      { emptyWorld with
        states := upd emptyWorld.states "U1"
          (some [("step", .num 5), ("location", .str "A"), ("date", .str "20240101"),
                 ("category", .str "X"), ("temp_items", .arr [some "I2"]),
                 ("final_items", .str "I2")]) } =
      ⟨{ states := upd (upd emptyWorld.states "U1"
            (some [("step", .num 5), ("location", .str "A"), ("date", .str "20240101"),
                   ("category", .str "X"), ("temp_items", .arr [some "I2"]),
                   ("final_items", .str "I2")])) "U1" none
         users := emptyWorld.users
         records :=
           [[ ("uid", .str "U1"), ("location", .str "A"), ("date", .str "20240101"),
              ("category", .str "X"), ("items", .str "I2"), ("description", .str "desc"),
              ("created_at", .time 3) ]]
         trace :=
           [ .recordAdd
               [ ("uid", .str "U1"), ("location", .str "A"), ("date", .str "20240101"),
                 ("category", .str "X"), ("items", .str "I2"), ("description", .str "desc"),
                 ("created_at", .time 3) ],
             .stateDelete "U1",
             .reply "T1" (.text completionText) ] }, none⟩ :=
  step5_text_records ⟨"2024-01-01T08:00:00.000Z", 3⟩
    { emptyWorld with
      states := upd emptyWorld.states "U1"
        (some [("step", .num 5), ("location", .str "A"), ("date", .str "20240101"),
               ("category", .str "X"), ("temp_items", .arr [some "I2"]),
               ("final_items", .str "I2")]) }
    "U1" "T1" " desc "
    [("step", .num 5), ("location", .str "A"), ("date", .str "20240101"),
     ("category", .str "X"), ("temp_items", .arr [some "I2"]), ("final_items", .str "I2")]
    (by decide) (by decide) (by decide) (by decide) (by decide) (by decide) (by decide)
    (by decide)

/-- C9: for a `set_date` postback, with `loc` the carried location or its
placeholder: a non-empty `val` is the date the category menu is seeded with;
otherwise a date in the structured parameters is used with every `-` removed
(`2024-01-01` becomes `20240101`); if neither gives a non-empty date the reply
is the date-capture-failed text.  In all three cases the reply is the only effect,
so the state store is not written. -/
theorem set_date_reply (env : Env) (w : World) (userId tok : String)
    (data : Option String) (params : Option Params) (payload : Payload)
    (hparse : parseQueryString data = .ok payload)
    (hact : payload.lookup "action" = some "set_date") :
    (∀ v : String, payload.lookup "val" = some v → v ≠ "" →
      handleEvent env ⟨userId, tok, .postback data params⟩ w =
        ⟨{ states := w.states, users := w.users, records := w.records,
           trace := w.trace ++
             [.reply tok (categoryMenu (orElse (payload.lookup "loc") "未知地點") v)] },
         none⟩) ∧
    (∀ d : String, (payload.lookup "val" = none ∨ payload.lookup "val" = some "") →
      params = some ⟨some d⟩ → stripDashes d ≠ "" →
      handleEvent env ⟨userId, tok, .postback data params⟩ w =
        ⟨{ states := w.states, users := w.users, records := w.records,
           trace := w.trace ++
             [.reply tok
               (categoryMenu (orElse (payload.lookup "loc") "未知地點") (stripDashes d))] },
         none⟩) ∧
    ((payload.lookup "val" = none ∨ payload.lookup "val" = some "") →
      (params = none ∨ params = some ⟨none⟩ ∨
        ∃ d : String, params = some ⟨some d⟩ ∧ stripDashes d = "") →
      handleEvent env ⟨userId, tok, .postback data params⟩ w =
        ⟨{ states := w.states, users := w.users, records := w.records,
           trace := w.trace ++ [.reply tok (.text dateFailedText)] }, none⟩) ∧
    stripDashes "2024-01-01" = "20240101" ∧
    (∀ loc date : String, categoryMenu loc date =
      .flex "請選擇項目"
        { header := [stepHeader "步驟 3/5：請選擇登錄項目"]
          spacing := "md"
          body :=
            [ .button "primary" none none
                { type := "postback", label := "青年會行事/活動(含VTR)",
                  data := "action=select_cat&loc=" ++ loc ++ "&date=" ++ date ++
                    "&val=青年會行事/活動(含VTR)", mode := none },
              .button "primary" none none
                { type := "postback", label := "個人實踐項目 (可複選)",
                  data := "action=select_cat&loc=" ++ loc ++ "&date=" ++ date ++
                    "&val=個人實踐項目 (可複選)", mode := none } ] }) := by
  have hne : (some "set_date" : Option String) ≠ some "select_loc" := by decide
  have hstrip : stripDashes "" = "" := by decide
  refine ⟨?_, ?_, ?_, by decide, fun _ _ => rfl⟩
  · intro v hval hv
    simp [handleEvent, hparse, handlePostback, hact, hval, resolveDate, orElse, hv,
      replyCategoryMenu, replyMessage, logOp]
  · intro d hval hparams hd
    have hd0 : d ≠ "" := by
      intro h0
      rw [h0] at hd
      exact hd hstrip
    rcases hval with hval | hval <;>
    simp [handleEvent, hparse, handlePostback, hact, hval, hparams, resolveDate, orElse, hd,
      hd0, replyCategoryMenu, replyMessage, logOp]
  · intro hval hparams
    rcases hval with hval | hval <;> rcases hparams with hp | hp | ⟨d, hp, hd⟩ <;>
    simp [handleEvent, hparse, handlePostback, hact, hval, hp, resolveDate, orElse,
      replyMessage, logOp]
    all_goals
      intro _ hnd
      exact absurd hd hnd

/-- Witness of `set_date_reply`: the date picker sends `2024-01-01` for location `A`. -/
theorem set_date_reply_witness :
    handleEvent ⟨"2024-01-01T08:00:00.000Z", 0⟩
      ⟨"U1", "T1", .postback (some "action=set_date&loc=A") (some ⟨some "2024-01-01"⟩)⟩
      emptyWorld =
      ⟨{ states := emptyWorld.states, users := emptyWorld.users, records := [],
         trace := [.reply "T1" (categoryMenu "A" "20240101")] }, none⟩ :=
  (set_date_reply ⟨"2024-01-01T08:00:00.000Z", 0⟩ emptyWorld "U1" "T1"
    (some "action=set_date&loc=A") (some ⟨some "2024-01-01"⟩)
    [("action", "set_date"), ("loc", "A")] (by decide) (by decide)).2.1
    "2024-01-01" (Or.inl (by decide)) rfl (by decide)

/-- C10 (code at the failing input): the escape `%E0%A4%A` of the claim is
rejected by `decodeURIComponent`, which `parseQueryString` calls unguarded
(line 186), so for the data string `action=toggle_item&val=%E0%A4%A`
`parseQueryString` throws a `URIError` instead of returning a map, and
`handleEvent` ends with that exception in every world, for every user and reply
token, with no reply sent and no store written.  Two data strings that do parse
also end in an exception and without a reply, because `val` has no default where
`loc` and `date` have one: `action=select_cat` hands `category: undefined` to the
state write, and `action=toggle_item` on a step-4 state hands a list holding
`undefined` to the state update.  An empty data string is handled without an
exception, and without any reply. -/
theorem garbled_payload_throws (env : Env) (w : World) (userId tok : String)
    (params : Option Params) :
    decodeURIComponent "%E0%A4%A" = none ∧
    parseQueryString (some "action=toggle_item&val=%E0%A4%A") = .error .uriError ∧
    handleEvent env ⟨userId, tok, .postback (some "action=toggle_item&val=%E0%A4%A") params⟩ w =
      ⟨w, some .uriError⟩ ∧
    handleEvent env ⟨userId, tok, .postback (some "action=select_cat") params⟩ w =
      ⟨{ states := w.states, users := w.users, records := w.records,
         trace := w.trace ++
           [.stateSet userId
             [ ("step", .num 4), ("location", .str "未知"), ("date", .str "未知"),
               ("category", .undefined), ("temp_items", .arr []) ]] },
       some .invalidData⟩ ∧
    (handleEvent ⟨"2024-01-01T08:00:00.000Z", 0⟩ (postbackEvent "U1" "T1" "action=toggle_item")
      { emptyWorld with
        states := upd emptyWorld.states "U1"
          (some [ ("step", .num 4), ("location", .str "A"), ("date", .str "20240101"),
                  ("category", .str "X"), ("temp_items", .arr []) ]) }).error =
      some .invalidData ∧
    (handleEvent ⟨"2024-01-01T08:00:00.000Z", 0⟩ (postbackEvent "U1" "T1" "action=toggle_item")
      { emptyWorld with
        states := upd emptyWorld.states "U1"
          (some [ ("step", .num 4), ("location", .str "A"), ("date", .str "20240101"),
                  ("category", .str "X"), ("temp_items", .arr []) ]) }).world.trace =
      [.stateUpdate "U1" [("temp_items", .arr [none])]] ∧
    handleEvent env ⟨userId, tok, .postback (some "") params⟩ w = ⟨w, none⟩ ∧
    handleEvent env ⟨userId, tok, .postback none params⟩ w = ⟨w, none⟩ := by
  have h1 : parseQueryString (some "action=toggle_item&val=%E0%A4%A") = .error .uriError := by
    decide
  have h2 : parseQueryString (some "action=select_cat") = .ok [("action", "select_cat")] := by
    decide
  have h3 : parseQueryString (some "") = .ok [] := by decide
  have h4 : parseQueryString none = .ok [] := by decide
  refine ⟨by decide, h1, ?_, ?_, by decide, by decide, ?_, ?_⟩
  · simp [handleEvent, h1]
  · simp [handleEvent, h2, handlePostback, List.lookup, orElse, ofOpt, andThen, stateSet,
      storableDoc, storable, logOp]
  · simp [handleEvent, h3, handlePostback, List.lookup]
  · simp [handleEvent, h4, handlePostback, List.lookup]

/-! ## Lemmas on the reference parser -/

theorem lookup_assign {β : Type} (k : String) (v : β) (l : List (String × β)) (k2 : String) :
    (assign k v l).lookup k2 = if k2 = k then some v else l.lookup k2 := by
  induction l with
  | nil =>
    by_cases h : k2 = k
    · simp [assign, List.lookup, h]
    · have hb : (k2 == k) = false := by simpa using h
      simp [assign, List.lookup, h, hb]
  | cons kv rest ih =>
    obtain ⟨k0, v0⟩ := kv
    by_cases h0 : k0 = k
    · subst h0
      by_cases h : k2 = k0
      · simp [assign, List.lookup, h]
      · have hb : (k2 == k0) = false := by simpa using h
        simp [assign, List.lookup, h, hb]
    · by_cases h2 : k2 = k0
      · subst h2
        simp [assign, List.lookup, h0]
      · have hb : (k2 == k0) = false := by simpa using h2
        simp only [assign, h0, if_false, List.lookup, hb]
        exact ih

theorem lookup_setProperty (k v : String) (l : Payload) (k2 : String) :
    (setProperty k v l).lookup k2 =
      if k2 = k ∧ k ≠ "__proto__" then some v else l.lookup k2 := by
  unfold setProperty
  by_cases hp : k = "__proto__"
  · simp [hp]
  · simp only [hp, if_false, lookup_assign]
    by_cases h : k2 = k <;> simp [h, hp]

/-- The loop decodes the kept segments in order and assigns them one after another. -/
theorem parseLoop_eq (vars : List String) :
    ∀ result : Payload, parseLoop vars result =
      match decodeAll (vars.filterMap (fun seg =>
        match jsSplit '=' seg with
        | k :: x :: _ => some (k, x)
        | _ => none)) with
      | .ok pairs => .ok (pairs.foldl (fun acc kv => setProperty kv.1 kv.2 acc) result)
      | .error e => .error e := by
  induction vars with
  | nil =>
    intro result
    simp [parseLoop, decodeAll]
  | cons v rest ih =>
    intro result
    unfold parseLoop
    split
    · rename_i k x tl hsplit
      simp only [List.filterMap_cons, hsplit]
      unfold decodeAll
      cases hdec : decodeURIComponent x with
      | none => simp
      | some d =>
        simp only []
        rw [ih]
        split <;> simp_all
    · rename_i hno
      have : (match jsSplit '=' v with
        | k :: x :: _ => some (k, x)
        | _ => none) = (none : Option (String × String)) := by
        split
        · rename_i k x tl hsplit
          exact absurd hsplit (hno k x tl)
        · rfl
      simp only [List.filterMap_cons, this]
      exact ih result

theorem lookup_foldl_setProperty (pairs : List (String × String)) :
    ∀ (result : Payload) (k : String),
      (pairs.foldl (fun acc kv => setProperty kv.1 kv.2 acc) result).lookup k =
        if k = "__proto__" then result.lookup k
        else (lastValue pairs k).or (result.lookup k) := by
  induction pairs with
  | nil =>
    intro result k
    simp [lastValue]
  | cons p ps ih =>
    intro result k
    obtain ⟨pk, pv⟩ := p
    simp only [List.foldl_cons]
    rw [ih]
    by_cases hk : k = "__proto__"
    · simp only [hk, if_true, lookup_setProperty]
      by_cases h : "__proto__" = pk
      · simp [h]
      · simp [h]
    · simp only [hk, if_false, lookup_setProperty, lastValue, List.reverse_cons,
        List.lookup_append]
      by_cases h : k = pk
      · subst h
        simp [hk, List.lookup]
        cases List.lookup k ps.reverse <;> simp
      · have hb : (k == pk) = false := by simpa using h
        simp [h, List.lookup, hb]

theorem splitOnChar_absent (sep : Char) (cs : List Char) (h : ∀ c ∈ cs, c ≠ sep) :
    splitOnChar sep cs = [cs] := by
  induction cs with
  | nil => rfl
  | cons c rest ih =>
    have hc : c ≠ sep := h c (List.mem_cons_self c rest)
    have hrest : ∀ x ∈ rest, x ≠ sep := fun x hx => h x (List.mem_cons_of_mem c hx)
    simp [splitOnChar, hc, ih hrest]

/-- C11 (as stated, refuted): for the query `__proto__=x` the reference maps the key
`__proto__` to `x`, but the object returned by `parseQueryString` has no such key. -/
theorem parseQueryString_proto_key :
    parseReference (some "__proto__=x") = .ok [("__proto__", "x")] ∧
    lastValue [("__proto__", "x")] "__proto__" = some "x" ∧
    parseQueryString (some "__proto__=x") = .ok [] := by
  decide

/-- C11 (amended): `parseQueryString` agrees with the reference (split on `&`, split
each segment on `=`, drop the segments with fewer than two parts, map the first
part to the URL-decoded second part, later segments replacing earlier ones) on
every key other than `__proto__`, which is never present; both throw together
when a kept value has a malformed escape; the empty or missing string gives the
empty map; and a segment without `=` changes nothing. -/
theorem parseQueryString_reference (query : Option String) :
    (match parseQueryString query, parseReference query with
     | .ok payload, .ok pairs =>
       ∀ k : String, payload.lookup k = if k = "__proto__" then none else lastValue pairs k
     | .error e1, .error e2 => e1 = e2
     | _, _ => False) ∧
    parseQueryString none = .ok [] ∧
    parseQueryString (some "") = .ok [] ∧
    (∀ (seg : String) (vars1 vars2 : List String) (result : Payload),
      (∀ c ∈ seg.data, c ≠ '=') →
      parseLoop (vars1 ++ seg :: vars2) result = parseLoop (vars1 ++ vars2) result) := by
  refine ⟨?_, rfl, rfl, ?_⟩
  · cases query with
    | none => simp [parseQueryString, parseReference, lastValue]
    | some q =>
      by_cases hq : q = ""
      · simp [parseQueryString, parseReference, hq, lastValue]
      · simp only [parseQueryString, parseReference, hq, if_false, parseLoop_eq, keptSegments]
        cases hdec : decodeAll (List.filterMap (fun seg =>
            match jsSplit '=' seg with
            | k :: x :: _ => some (k, x)
            | _ => none) (jsSplit '&' q)) with
        | error e => simp
        | ok pairs =>
          simp only []
          intro k
          rw [lookup_foldl_setProperty]
          by_cases hk : k = "__proto__"
          · simp [hk]
          · simp [hk]
  · intro seg vars1 vars2 result hseg
    have hsplit : jsSplit '=' seg = [seg] := by
      simp [jsSplit, splitOnChar_absent '=' seg.data hseg]
    rw [parseLoop_eq, parseLoop_eq]
    simp [List.filterMap_append, hsplit]

/-- Witness of the amended C11: the segment `x` has no `=`, so it is skipped. -/
theorem parseQueryString_reference_witness :
    parseLoop (["a=1"] ++ "x" :: ["b=2"]) [] = parseLoop (["a=1"] ++ ["b=2"]) [] :=
  (parseQueryString_reference none).2.2.2 "x" ["a=1"] ["b=2"] [] (by decide)

/-- C12: with membership decided by value equality, toggling an item that occurs
in the list removes its first occurrence and nothing else; toggling an item that
does not occur appends it at the end; in both cases the other items keep their
relative order. -/
theorem toggleItem_first_occurrence {α : Type} [DecidableEq α] (x : α) (l : List α) :
    (x ∈ l → ∃ a b : List α, l = a ++ x :: b ∧ x ∉ a ∧ toggleItem x l = a ++ b) ∧
    (x ∉ l → toggleItem x l = l ++ [x]) ∧
    (toggleItem x l).filter (fun y => decide (y ≠ x)) = l.filter (fun y => decide (y ≠ x)) := by
  refine ⟨?_, ?_, ?_⟩
  · intro hx
    obtain ⟨a, b, hna, hl, he⟩ := List.exists_erase_eq hx
    refine ⟨a, b, hl, hna, ?_⟩
    rw [toggleItem_eq, if_pos hx, he]
  · intro hx
    rw [toggleItem_eq, if_neg hx]
  · rw [toggleItem_eq]
    by_cases hx : x ∈ l
    · rw [if_pos hx, filter_ne_erase]
    · rw [if_neg hx, List.filter_append]
      simp

/-- Witness of the C12 theorem: `C` is appended to `[A, B]`, and `A` is removed from it. -/
theorem toggleItem_first_occurrence_witness :
    toggleItem (some "C") [some "A", some "B"] = [some "A", some "B"] ++ [some "C"] ∧
    ∃ a b : List (Option String), [some "A", some "B"] = a ++ some "A" :: b ∧ some "A" ∉ a ∧
      toggleItem (some "A") [some "A", some "B"] = a ++ b :=
  ⟨(toggleItem_first_occurrence (some "C") [some "A", some "B"]).2.1 (by decide),
   (toggleItem_first_occurrence (some "A") [some "A", some "B"]).1 (by decide)⟩

/-! ## Every run of `handleEvent` is a transition -/

theorem parseLoop_error (vars : List String) :
    ∀ (result : Payload) (e : JsError), parseLoop vars result = .error e → e = .uriError := by
  induction vars with
  | nil =>
    intro result e h
    simp [parseLoop] at h
  | cons v rest ih =>
    intro result e h
    unfold parseLoop at h
    split at h
    · split at h
      · exact ih _ e h
      · cases h
        rfl
    · exact ih _ e h

theorem parseQueryString_error (data : Option String) (e : JsError)
    (h : parseQueryString data = .error e) : e = .uriError := by
  unfold parseQueryString at h
  split at h
  · cases h
  · split at h
    · cases h
    · exact parseLoop_error _ _ e h

theorem loadState_truthy (userId : String) (w : World)
    (h : truthy (field (loadState userId w) "step") = true) :
    ∃ d0, w.states userId = some d0 ∧ loadState userId w = d0 := by
  unfold loadState at h ⊢
  cases hs : w.states userId with
  | none =>
    rw [hs] at h
    simp [field, truthy] at h
  | some d0 => exact ⟨d0, rfl, rfl⟩

theorem loadState_field_ne (userId : String) (w : World) (v : JsVal)
    (hv : v ≠ .undefined) (h : field (loadState userId w) "step" = v) :
    ∃ d0, w.states userId = some d0 ∧ loadState userId w = d0 := by
  unfold loadState at h ⊢
  cases hs : w.states userId with
  | none =>
    rw [hs] at h
    simp [field] at h
    exact absurd h.symm hv
  | some d0 => exact ⟨d0, rfl, rfl⟩

theorem handlePostback_transition (env : Env) (userId tok : String) (data : Option String)
    (params : Option Params) (payload : Payload) (w : World)
    (hparse : parseQueryString data = .ok payload) :
    Transition ⟨userId, tok, .postback data params⟩ w
      (handlePostback env userId tok (loadState userId w) payload params w) := by
  have hact : actionOf ⟨userId, tok, .postback data params⟩ = payload.lookup "action" := by
    simp [actionOf, hparse]
  unfold handlePostback
  simp only []
  by_cases h1 : payload.lookup "action" = some "select_loc"
  · rw [if_pos h1]
    exact .replied _
  rw [if_neg h1]
  by_cases h2 : payload.lookup "action" = some "set_date"
  · rw [if_pos h2]
    split
    · exact .replied _
    · exact .replied _
  rw [if_neg h2]
  by_cases h3 : payload.lookup "action" = some "select_cat"
  · rw [if_pos h3]
    cases hval : payload.lookup "val" with
    | none =>
      simp only [ofOpt, andThen, stateSet, storableDoc, storable, List.all_cons, List.all_nil,
        Bool.and_false, Bool.false_and, Bool.and_true, Bool.true_and, Bool.false_eq_true,
        if_false, logOp]
      exact .rejectedSet _ (hact.trans h3)
    | some cat =>
      simp only [ofOpt, andThen, stateSet, storableDoc, storable, List.all_cons, List.all_nil,
        Bool.and_true, if_true, logOp, replyItemMenu, replyMessage, List.append_assoc,
        List.singleton_append]
      exact .selected _ _ cat _ (hact.trans h3)
  rw [if_neg h3]
  by_cases h4 : payload.lookup "action" = some "toggle_item"
  · rw [if_pos h4]
    cases hstep : truthy (field (loadState userId w) "step") with
    | false =>
      simp only [Bool.not_false, if_true]
      exact .replied _
    | true =>
      obtain ⟨d0, hs, hload⟩ := loadState_truthy userId w hstep
      rw [hload] at hstep ⊢
      simp only [Bool.not_true, Bool.false_eq_true, if_false]
      cases hl : currentListOf (field d0 "temp_items") with
      | none => exact .silent _ (by decide)
      | some l0 =>
        simp only []
        by_cases hst : storableDoc
            [("temp_items", .arr (toggleItem (payload.lookup "val") l0))] = true
        · simp only [andThen, stateUpdate, hst, if_true, hs, logOp, replyItemMenu,
            replyMessage, List.append_assoc, List.singleton_append]
          exact .toggled d0 l0 _ _ (hact.trans h4) hs hstep hl
        · simp only [andThen, stateUpdate, hst, if_false, logOp]
          exact .rejectedUpdate d0 l0 _ (hact.trans h4) hs hstep hl
  rw [if_neg h4]
  by_cases h5 : payload.lookup "action" = some "confirm_items"
  · rw [if_pos h5]
    cases hstep : truthy (field (loadState userId w) "step") with
    | false =>
      simp only [Bool.not_false, if_true]
      exact .silent _ (by decide)
    | true =>
      obtain ⟨d0, hs, hload⟩ := loadState_truthy userId w hstep
      rw [hload] at hstep ⊢
      simp only [Bool.not_true, Bool.false_eq_true, if_false]
      cases hf : finalItemsOf (field d0 "temp_items") with
      | none => exact .silent _ (by decide)
      | some finalItems =>
        simp only [andThen, stateUpdate, storableDoc, storable, List.all_cons, List.all_nil,
          Bool.and_true, if_true, hs, logOp, replyMessage, List.append_assoc,
          List.singleton_append]
        exact .confirmed d0 finalItems _ (hact.trans h5) hs hstep
  rw [if_neg h5]
  exact .silent _ (by decide)

theorem handleText_transition (env : Env) (userId tok raw : String) (w : World) :
    Transition ⟨userId, tok, .textMessage raw⟩ w
      (handleText env userId tok (loadState userId w) (jsTrim raw) w) := by
  unfold handleText
  by_cases h1 : jsTrim raw = "青年會資訊註冊"
  · rw [if_pos h1]
    cases hreg : checkUserIsRegistered userId w with
    | true =>
      simp only [if_true]
      exact .replied _
    | false =>
      have hu : w.users userId = none := by
        unfold checkUserIsRegistered at hreg
        cases hx : w.users userId with
        | none => rfl
        | some p => simp [hx] at hreg
      simp only [Bool.false_eq_true, if_false, andThen, stateSet, storableDoc, storable,
        List.all_cons, List.all_nil, Bool.and_true, if_true, logOp, replyMessage,
        List.append_assoc, List.singleton_append]
      exact .registering raw _ rfl hu
  rw [if_neg h1]
  by_cases h2 : jsTrim raw = "實績回報"
  · rw [if_pos h2]
    split
    · exact .replied _
    · exact .replied _
  rw [if_neg h2]
  by_cases h3 : field (loadState userId w) "step" = .str "registering"
  · rw [if_pos h3]
    obtain ⟨d0, hs, hload⟩ := loadState_field_ne userId w _ (by decide) h3
    rw [hload] at h3
    split
    · simp only [andThen, userSet, storableDoc, storable, List.all_cons, List.all_nil,
        Bool.and_true, if_true, logOp, stateDelete, replyMessage, List.append_assoc,
        List.singleton_append, List.cons_append, List.nil_append]
      exact .registered raw d0 _ _ rfl hs h3
    · exact .replied _
  rw [if_neg h3]
  by_cases h5 : field (loadState userId w) "step" = .num 5
  · rw [if_pos h5]
    obtain ⟨d0, hs, hload⟩ := loadState_field_ne userId w _ (by decide) h5
    rw [hload] at h5 ⊢
    by_cases hst : storableDoc (recordOf userId d0 (jsTrim raw) env.now) = true
    · have hst2 := hst
      unfold recordOf at hst2
      simp only [andThen, recordAdd, hst2, if_true, logOp, stateDelete, replyMessage,
        List.append_assoc, List.singleton_append, List.cons_append, List.nil_append]
      exact .recorded raw d0 env.now _ rfl hs h5 hst
    · have hst2 := hst
      unfold recordOf at hst2
      simp only [andThen, recordAdd, hst2, if_false, logOp]
      exact .rejectedAdd raw _ rfl
  rw [if_neg h5]
  exact .silent _ (by decide)

theorem handleEvent_transition (env : Env) (event : Event) (w : World) :
    Transition event w (handleEvent env event w) := by
  obtain ⟨userId, tok, body⟩ := event
  cases body with
  | other => exact .silent _ (by decide)
  | textMessage raw => exact handleText_transition env userId tok raw w
  | postback data params =>
    cases hparse : parseQueryString data with
    | error e =>
      have hrun : handleEvent env ⟨userId, tok, .postback data params⟩ w = ⟨w, some e⟩ := by
        simp [handleEvent, hparse]
      rw [hrun]
      exact .silent _ (by rw [parseQueryString_error data e hparse]; decide)
    | ok payload =>
      have hrun : handleEvent env ⟨userId, tok, .postback data params⟩ w =
          handlePostback env userId tok (loadState userId w) payload params w := by
        simp [handleEvent, hparse]
      rw [hrun]
      exact handlePostback_transition env userId tok data params payload w hparse

/-- C13: while handling one event, the user's state is deleted exactly when the same
event writes a profile (successful registration) or appends a record (successful
submission); the delete is the one of the event's user and leaves no state; and
when no delete is issued, neither the profiles nor the records change. -/
theorem delete_iff_run_terminates (env : Env) (event : Event) (w : World) :
    ((Op.stateDelete event.userId ∈ newOps env event w) ↔
      ((∃ p, Op.userSet event.userId p ∈ newOps env event w ∧
          (handleEvent env event w).world.users event.userId = some p) ∨
       (∃ r, Op.recordAdd r ∈ newOps env event w ∧
          (handleEvent env event w).world.records = w.records ++ [r]))) ∧
    (∀ u, Op.stateDelete u ∈ newOps env event w →
      u = event.userId ∧ (handleEvent env event w).world.states u = none) ∧
    (Op.stateDelete event.userId ∉ newOps env event w →
      (handleEvent env event w).world.users = w.users ∧
      (handleEvent env event w).world.records = w.records) := by
  have ht := handleEvent_transition env event w
  unfold newOps
  generalize handleEvent env event w = out at ht ⊢
  cases ht <;> simp [upd]

/-- Witness of the C13 theorem: in step 5 the text `desc` appends a record, and the state is deleted. -/
theorem delete_iff_run_terminates_witness :
    Op.stateDelete "U1" ∈ newOps ⟨"2024-01-01T08:00:00.000Z", 3⟩ (textEvent "U1" "T1" "desc")
      { emptyWorld with
        states := upd emptyWorld.states "U1"
          (some [("step", .num 5), ("location", .str "A"), ("date", .str "20240101"),
                 ("category", .str "X"), ("temp_items", .arr [some "I2"]),
                 ("final_items", .str "I2")]) } :=
  (delete_iff_run_terminates ⟨"2024-01-01T08:00:00.000Z", 3⟩ (textEvent "U1" "T1" "desc")
    { emptyWorld with
      states := upd emptyWorld.states "U1"
        (some [("step", .num 5), ("location", .str "A"), ("date", .str "20240101"),
               ("category", .str "X"), ("temp_items", .arr [some "I2"]),
               ("final_items", .str "I2")]) }).1.mpr
    (Or.inr ⟨[ ("uid", .str "U1"), ("location", .str "A"), ("date", .str "20240101"),
               ("category", .str "X"), ("items", .str "I2"), ("description", .str "desc"),
               ("created_at", .time 3) ], by decide, by decide⟩)

/-! ## Invariants of the reachable worlds -/

theorem field_merge_temp (d0 : Doc) (v : JsVal) (k : String) :
    field (mergeDoc d0 [("temp_items", v)]) k =
      if k = "temp_items" then v else field d0 k := by
  simp [mergeDoc, field_assign]

theorem field_merge_confirm (d0 : Doc) (a b : JsVal) (k : String) :
    field (mergeDoc d0 [("step", a), ("final_items", b)]) k =
      if k = "final_items" then b else if k = "step" then a else field d0 k := by
  simp [mergeDoc, field_assign]

theorem profileWrites_append (u : String) (xs ys : List Op) :
    profileWrites u (xs ++ ys) = profileWrites u xs + profileWrites u ys := by
  simp [profileWrites, List.countP_append]

/-- The invariant behind C14: a registering state belongs to a user without
profile, and the profile writes of a user number one if the user has a profile
and zero otherwise. -/
theorem registration_invariant (w0 w : World)
    (hs0 : ∀ u, w0.states u = none) (hu0 : ∀ u, w0.users u = none)
    (hreach : ReachableFrom w0 w) :
    (∀ u d, w.states u = some d → field d "step" = .str "registering" → w.users u = none) ∧
    (∃ added, w.trace = w0.trace ++ added ∧
      ∀ u, profileWrites u added = if (w.users u).isSome then 1 else 0) := by
  induction hreach with
  | start =>
    refine ⟨fun u d hd _ => ?_, [], by simp, fun u => ?_⟩
    · rw [hs0 u] at hd
      cases hd
    · simp [hu0 u, profileWrites]
  | step env event w hw ih =>
    obtain ⟨ihA, added, htr, ihB⟩ := ih
    have ht := handleEvent_transition env event w
    generalize handleEvent env event w = out at ht ⊢
    cases ht with
    | silent e he => exact ⟨ihA, added, htr, ihB⟩
    | replied m =>
      refine ⟨ihA, added ++ [.reply event.replyToken m], by simp [htr], fun u => ?_⟩
      rw [profileWrites_append, ihB u]
      simp [profileWrites]
    | rejectedSet d ha =>
      refine ⟨ihA, added ++ [.stateSet event.userId d], by simp [htr], fun u => ?_⟩
      rw [profileWrites_append, ihB u]
      simp [profileWrites]
    | rejectedUpdate d0 l0 item ha hs htruthy hl =>
      refine ⟨ihA,
        added ++ [.stateUpdate event.userId [("temp_items", .arr (toggleItem item l0))]],
        by simp [htr], fun u => ?_⟩
      rw [profileWrites_append, ihB u]
      simp [profileWrites]
    | rejectedAdd raw r hb =>
      refine ⟨ihA, added ++ [.recordAdd r], by simp [htr], fun u => ?_⟩
      rw [profileWrites_append, ihB u]
      simp [profileWrites]
    | selected loc date cat m ha =>
      refine ⟨fun u d hd hreg => ?_, added ++ _, by simp only [htr, List.append_assoc]; rfl,
        fun u => ?_⟩
      · by_cases hu : u = event.userId
        · subst hu
          simp only [upd, if_true, Option.some.injEq] at hd
          subst hd
          simp [field, List.lookup] at hreg
        · simp only [upd, hu, if_false] at hd
          exact ihA u d hd hreg
      · rw [profileWrites_append, ihB u]
        simp [profileWrites]
    | toggled d0 l0 item m ha hs htruthy hl =>
      refine ⟨fun u d hd hreg => ?_, added ++ _, by simp only [htr, List.append_assoc]; rfl,
        fun u => ?_⟩
      · by_cases hu : u = event.userId
        · subst hu
          simp only [upd, if_true, Option.some.injEq] at hd
          subst hd
          rw [field_merge_temp] at hreg
          simp only [String.reduceEq, if_false] at hreg
          exact ihA _ d0 hs hreg
        · simp only [upd, hu, if_false] at hd
          exact ihA u d hd hreg
      · rw [profileWrites_append, ihB u]
        simp [profileWrites]
    | confirmed d0 finalItems m ha hs htruthy =>
      refine ⟨fun u d hd hreg => ?_, added ++ _, by simp only [htr, List.append_assoc]; rfl,
        fun u => ?_⟩
      · by_cases hu : u = event.userId
        · subst hu
          simp only [upd, if_true, Option.some.injEq] at hd
          subst hd
          rw [field_merge_confirm] at hreg
          simp at hreg
        · simp only [upd, hu, if_false] at hd
          exact ihA u d hd hreg
      · rw [profileWrites_append, ihB u]
        simp [profileWrites]
    | registering raw m hb hu0' =>
      refine ⟨fun u d hd hreg => ?_, added ++ _, by simp only [htr, List.append_assoc]; rfl,
        fun u => ?_⟩
      · by_cases hu : u = event.userId
        · subst hu
          exact hu0'
        · simp only [upd, hu, if_false] at hd
          exact ihA u d hd hreg
      · rw [profileWrites_append, ihB u]
        simp [profileWrites]
    | registered raw d0 profile m hb hs hr =>
      have hnone : w.users event.userId = none := ihA event.userId d0 hs hr
      refine ⟨fun u d hd hreg => ?_, added ++ _, by simp only [htr, List.append_assoc]; rfl,
        fun u => ?_⟩
      · by_cases hu : u = event.userId
        · subst hu
          simp [upd] at hd
        · simp only [upd, hu, if_false] at hd ⊢
          exact ihA u d hd hreg
      · rw [profileWrites_append, ihB u]
        by_cases hu : u = event.userId
        · subst hu
          simp [profileWrites, upd, hnone]
        · have hu2 : ¬ event.userId = u := fun h => hu h.symm
          simp [profileWrites, upd, hu, hu2]
    | recorded raw d0 now m hb hs h5 hst =>
      refine ⟨fun u d hd hreg => ?_, added ++ _, by simp only [htr, List.append_assoc]; rfl,
        fun u => ?_⟩
      · by_cases hu : u = event.userId
        · subst hu
          simp [upd] at hd
        · simp only [upd, hu, if_false] at hd
          exact ihA u d hd hreg
      · rw [profileWrites_append, ihB u]
        simp [profileWrites]

theorem reachable_runSteps (w0 : World) (steps : List (Env × Event)) :
    ∀ w, ReachableFrom w0 w → ReachableFrom w0 (runSteps steps w) := by
  induction steps with
  | nil =>
    intro w hw
    exact hw
  | cons s rest ih =>
    intro w hw
    exact ih _ (.step s.1 s.2 w hw)

/-- C14: in every world reached from empty `states` and `users` collections by
handling events one at a time, each user's profile has been written at most once,
a state with step `registering` exists only for a user without profile, and a
profile write issued by the next event is for a user who has no profile. -/
theorem profile_written_at_most_once (w0 w : World)
    (hs0 : ∀ u, w0.states u = none) (hu0 : ∀ u, w0.users u = none)
    (hreach : ReachableFrom w0 w) :
    (∀ u, profileWrites u (w.trace.drop w0.trace.length) ≤ 1) ∧
    (∀ u d, w.states u = some d → field d "step" = .str "registering" → w.users u = none) ∧
    (∀ (env : Env) (event : Event) (u : String) (p : Doc),
      Op.userSet u p ∈ newOps env event w → w.users u = none) := by
  obtain ⟨hA, added, htr, hB⟩ := registration_invariant w0 w hs0 hu0 hreach
  refine ⟨fun u => ?_, hA, fun env event u p hmem => ?_⟩
  · rw [htr, List.drop_left, hB u]
    split <;> simp
  · have ht := handleEvent_transition env event w
    unfold newOps at hmem
    generalize handleEvent env event w = out at ht hmem
    cases ht with
    | registered raw d0 profile m hb hs hr =>
      simp at hmem
      rw [hmem.1]
      exact hA _ d0 hs hr
    | _ => simp at hmem

/-- Witness of the C14 theorem: the registration trigger followed by three tokens, from the
empty world; the profile of `U1` has been written once. -/
theorem profile_written_at_most_once_witness :
    profileWrites "U1"
      ((runSteps
        [ (⟨"2024-01-01T08:00:00.000Z", 0⟩, textEvent "U1" "T1" "青年會資訊註冊"),
          (⟨"2024-01-01T08:00:00.000Z", 1⟩, textEvent "U1" "T2" "青年部 經親 王小明") ]
        emptyWorld).trace.drop emptyWorld.trace.length) ≤ 1 :=
  (profile_written_at_most_once emptyWorld _ (fun _ => rfl) (fun _ => rfl)
    (reachable_runSteps emptyWorld _ emptyWorld .start)).1 "U1"

theorem storable_defined (v : JsVal) (h : storable v = true) : v ≠ .undefined := by
  intro hv
  rw [hv] at h
  simp [storable] at h

theorem recordOf_defined (userId : String) (d0 : Doc) (text : String) (now : Nat)
    (h : storableDoc (recordOf userId d0 text now) = true) :
    field (recordOf userId d0 text now) "location" ≠ .undefined ∧
    field (recordOf userId d0 text now) "date" ≠ .undefined ∧
    field (recordOf userId d0 text now) "category" ≠ .undefined ∧
    field (recordOf userId d0 text now) "items" ≠ .undefined := by
  simp only [recordOf, storableDoc, List.all_cons, List.all_nil, Bool.and_true,
    Bool.and_eq_true] at h
  obtain ⟨_, hl, hd, hc, hi, _, _⟩ := h
  have e1 : field (recordOf userId d0 text now) "location" = field d0 "location" := by
    simp [recordOf, field, List.lookup]
  have e2 : field (recordOf userId d0 text now) "date" = field d0 "date" := by
    simp [recordOf, field, List.lookup]
  have e3 : field (recordOf userId d0 text now) "category" = field d0 "category" := by
    simp [recordOf, field, List.lookup]
  have e4 : field (recordOf userId d0 text now) "items" = field d0 "final_items" := by
    simp [recordOf, field, List.lookup]
  rw [e1, e2, e3, e4]
  exact ⟨storable_defined _ hl, storable_defined _ hd, storable_defined _ hc,
    storable_defined _ hi⟩

/-- The invariant behind C17: a state with step 5 has `final_items`, and the
records appended since the start have their four wizard fields defined. -/
theorem step5_invariant (w0 w : World) (hs0 : ∀ u, w0.states u = none)
    (hreach : ReachableFrom w0 w) :
    (∀ u d, w.states u = some d → field d "step" = .num 5 →
      ∃ F : String, field d "final_items" = .str F) ∧
    (∃ rs, w.records = w0.records ++ rs ∧
      ∀ r ∈ rs, field r "location" ≠ .undefined ∧ field r "date" ≠ .undefined ∧
        field r "category" ≠ .undefined ∧ field r "items" ≠ .undefined) := by
  induction hreach with
  | start =>
    refine ⟨fun u d hd _ => ?_, [], by simp, fun r hr => ?_⟩
    · rw [hs0 u] at hd
      cases hd
    · cases hr
  | step env event w hw ih =>
    obtain ⟨ihA, rs, hrec, ihB⟩ := ih
    have ht := handleEvent_transition env event w
    generalize handleEvent env event w = out at ht ⊢
    cases ht with
    | silent e he => exact ⟨ihA, rs, hrec, ihB⟩
    | replied m => exact ⟨ihA, rs, hrec, ihB⟩
    | rejectedSet d ha => exact ⟨ihA, rs, hrec, ihB⟩
    | rejectedUpdate d0 l0 item ha hs htruthy hl => exact ⟨ihA, rs, hrec, ihB⟩
    | rejectedAdd raw r hb => exact ⟨ihA, rs, hrec, ihB⟩
    | selected loc date cat m ha =>
      refine ⟨fun u d hd h5 => ?_, rs, hrec, ihB⟩
      by_cases hu : u = event.userId
      · subst hu
        simp only [upd, if_true, Option.some.injEq] at hd
        subst hd
        simp [field, List.lookup] at h5
      · simp only [upd, hu, if_false] at hd
        exact ihA u d hd h5
    | toggled d0 l0 item m ha hs htruthy hl =>
      refine ⟨fun u d hd h5 => ?_, rs, hrec, ihB⟩
      by_cases hu : u = event.userId
      · subst hu
        simp only [upd, if_true, Option.some.injEq] at hd
        subst hd
        rw [field_merge_temp] at h5 ⊢
        simp only [String.reduceEq, if_false] at h5 ⊢
        exact ihA _ d0 hs h5
      · simp only [upd, hu, if_false] at hd
        exact ihA u d hd h5
    | confirmed d0 finalItems m ha hs htruthy =>
      refine ⟨fun u d hd h5 => ?_, rs, hrec, ihB⟩
      by_cases hu : u = event.userId
      · subst hu
        simp only [upd, if_true, Option.some.injEq] at hd
        subst hd
        exact ⟨finalItems, by rw [field_merge_confirm]; simp⟩
      · simp only [upd, hu, if_false] at hd
        exact ihA u d hd h5
    | registering raw m hb hu0 =>
      refine ⟨fun u d hd h5 => ?_, rs, hrec, ihB⟩
      by_cases hu : u = event.userId
      · subst hu
        simp only [upd, if_true, Option.some.injEq] at hd
        subst hd
        simp [field, List.lookup] at h5
      · simp only [upd, hu, if_false] at hd
        exact ihA u d hd h5
    | registered raw d0 profile m hb hs hr =>
      refine ⟨fun u d hd h5 => ?_, rs, hrec, ihB⟩
      by_cases hu : u = event.userId
      · subst hu
        simp [upd] at hd
      · simp only [upd, hu, if_false] at hd
        exact ihA u d hd h5
    | recorded raw d0 now m hb hs h5 hst =>
      refine ⟨fun u d hd h5 => ?_, rs ++ [recordOf event.userId d0 (jsTrim raw) now],
        by simp [hrec], fun r hr => ?_⟩
      · by_cases hu : u = event.userId
        · subst hu
          simp [upd] at hd
        · simp only [upd, hu, if_false] at hd
          exact ihA u d hd h5
      · rcases List.mem_append.mp hr with hr | hr
        · exact ihB r hr
        · simp only [List.mem_singleton] at hr
          subst hr
          exact recordOf_defined _ _ _ _ hst

/-- C17 (as stated, refuted): the registration trigger followed by `confirm_items`
reaches, from the empty world, a stored state with step 5 that has no location,
date or category; the step before the confirmation was `registering`, not 4. -/
theorem step5_reached_from_registering :
    (runSteps
      [ (⟨"2024-01-01T08:00:00.000Z", 0⟩, textEvent "U1" "T1" "青年會資訊註冊") ]
      emptyWorld).states "U1" = some [("step", .str "registering")] ∧
    (runSteps
      [ (⟨"2024-01-01T08:00:00.000Z", 0⟩, textEvent "U1" "T1" "青年會資訊註冊"),
        (⟨"2024-01-01T08:00:00.000Z", 1⟩, postbackEvent "U1" "T2" "action=confirm_items") ]
      emptyWorld).states "U1" = some [("step", .num 5), ("final_items", .str "無")] ∧
    field [("step", .num 5), ("final_items", .str "無")] "location" = .undefined ∧
    field [("step", .num 5), ("final_items", .str "無")] "date" = .undefined ∧
    field [("step", .num 5), ("final_items", .str "無")] "category" = .undefined := by
  decide

/-- C17 (amended): in every world reached from an empty `states` collection by
handling events one at a time, a stored state with step 5 has `final_items`
present, and every record appended has location, date, category and items
defined; and `confirm_items` advances to step 5 only from a stored state whose
step is truthy (4, 5 or `registering`). -/
theorem step5_state_has_final_items (w0 w : World) (hs0 : ∀ u, w0.states u = none)
    (hreach : ReachableFrom w0 w) :
    (∀ u d, w.states u = some d → field d "step" = .num 5 →
      ∃ F : String, field d "final_items" = .str F) ∧
    (∃ rs, w.records = w0.records ++ rs ∧
      ∀ r ∈ rs, field r "location" ≠ .undefined ∧ field r "date" ≠ .undefined ∧
        field r "category" ≠ .undefined ∧ field r "items" ≠ .undefined) ∧
    (∀ (env : Env) (event : Event) (F : String),
      Op.stateUpdate event.userId [("step", .num 5), ("final_items", .str F)] ∈
        newOps env event w →
      ∃ d0, w.states event.userId = some d0 ∧ truthy (field d0 "step") = true) := by
  obtain ⟨hA, hB⟩ := step5_invariant w0 w hs0 hreach
  refine ⟨hA, hB, fun env event F hmem => ?_⟩
  have ht := handleEvent_transition env event w
  unfold newOps at hmem
  generalize handleEvent env event w = out at ht hmem
  cases ht with
  | confirmed d0 finalItems m ha hs htruthy => exact ⟨d0, hs, htruthy⟩
  | _ => simp at hmem

/-- Witness of the C17 theorem: the step-5 state reached by the end-to-end scenario has `final_items`. -/
theorem step5_state_has_final_items_witness :
    ∃ F : String,
      field [("step", .num 5), ("location", .str "A"), ("date", .str "20240101"),
             ("category", .str "X"), ("temp_items", .arr [some "I2"]),
             ("final_items", .str "I2")] "final_items" = .str F :=
  (step5_state_has_final_items emptyWorld
    (runSteps (((scenario "U1" "T1").take 7).map
      (fun e => ((⟨"2024-01-01T08:00:00.000Z", 0⟩ : Env), e))) emptyWorld)
    (fun _ => rfl) (reachable_runSteps emptyWorld _ emptyWorld .start)).1 "U1" _
    (by decide) (by decide)

/-- One postback that is neither `select_cat` nor `confirm_items` keeps every
stored state in place with its `step` and `final_items`. -/
theorem postback_keeps_final_items (env : Env) (event : Event) (w : World) (u : String)
    (d : Doc)
    (hpost : ∃ data params, event.body = .postback data params)
    (hcat : actionOf event ≠ some "select_cat")
    (hconf : actionOf event ≠ some "confirm_items")
    (hstate : w.states u = some d) :
    ∃ d2, (handleEvent env event w).world.states u = some d2 ∧
      field d2 "final_items" = field d "final_items" ∧ field d2 "step" = field d "step" := by
  obtain ⟨data, params, hbody⟩ := hpost
  have ht := handleEvent_transition env event w
  generalize handleEvent env event w = out at ht ⊢
  cases ht with
  | silent e he => exact ⟨d, hstate, rfl, rfl⟩
  | replied m => exact ⟨d, hstate, rfl, rfl⟩
  | rejectedSet d1 ha => exact ⟨d, hstate, rfl, rfl⟩
  | rejectedUpdate d0 l0 item ha hs htruthy hl => exact ⟨d, hstate, rfl, rfl⟩
  | rejectedAdd raw r hb => exact ⟨d, hstate, rfl, rfl⟩
  | selected loc date cat m ha => exact absurd ha hcat
  | confirmed d0 finalItems m ha hs htruthy => exact absurd ha hconf
  | registering raw m hb hu0 =>
    rw [hbody] at hb
    cases hb
  | registered raw d0 profile m hb hs hr =>
    rw [hbody] at hb
    cases hb
  | recorded raw d0 now m hb hs h5 hst =>
    rw [hbody] at hb
    cases hb
  | toggled d0 l0 item m ha hs htruthy hl =>
    by_cases hu : u = event.userId
    · subst hu
      rw [hs] at hstate
      cases hstate
      refine ⟨mergeDoc d [("temp_items", .arr (toggleItem item l0))], by simp [upd], ?_, ?_⟩
      · rw [field_merge_temp]
        simp
      · rw [field_merge_temp]
        simp
    · exact ⟨d, by simp [upd, hu, hstate], rfl, rfl⟩

/-- C18 (as stated, refuted): from the step-5 state of the end-to-end scenario, the
postbacks `toggle_item` of `I1` and `confirm_items` (no `select_cat` among them)
change `final_items` from `I2` to `I2,I1`. -/
theorem final_items_recomputed_at_step5 :
    ((runSteps
      [ (⟨"2024-01-01T08:00:00.000Z", 0⟩, postbackEvent "U1" "T1" "action=toggle_item&val=I1"),
        (⟨"2024-01-01T08:00:00.000Z", 1⟩, postbackEvent "U1" "T2" "action=confirm_items") ]
      { emptyWorld with
        states := upd emptyWorld.states "U1"
          (some [("step", .num 5), ("location", .str "A"), ("date", .str "20240101"),
                 ("category", .str "X"), ("temp_items", .arr [some "I2"]),
                 ("final_items", .str "I2")]) }).states "U1").map
      (fun d => field d "final_items") = some (.str "I2,I1") ∧
    JsVal.str "I2,I1" ≠ JsVal.str "I2" := by
  decide

/-- C18 (amended): `final_items` (and `step`) of a stored state are unchanged by every
sequence of postback events that includes neither `select_cat` nor
`confirm_items`, and the state stays stored. -/
theorem final_items_frozen (steps : List (Env × Event)) (w : World) (u : String) (d : Doc)
    (hsteps : ∀ s ∈ steps, (∃ data params, s.2.body = .postback data params) ∧
      actionOf s.2 ≠ some "select_cat" ∧ actionOf s.2 ≠ some "confirm_items")
    (hstate : w.states u = some d) :
    ∃ d2, (runSteps steps w).states u = some d2 ∧
      field d2 "final_items" = field d "final_items" ∧ field d2 "step" = field d "step" := by
  induction steps generalizing w d with
  | nil => exact ⟨d, hstate, rfl, rfl⟩
  | cons s rest ih =>
    obtain ⟨hpost, hcat, hconf⟩ := hsteps s (List.mem_cons_self s rest)
    obtain ⟨d1, hd1, hf1, hs1⟩ :=
      postback_keeps_final_items s.1 s.2 w u d hpost hcat hconf hstate
    obtain ⟨d2, hd2, hf2, hs2⟩ :=
      ih (handleEvent s.1 s.2 w).world d1
        (fun t ht => hsteps t (List.mem_cons_of_mem s ht)) hd1
    exact ⟨d2, hd2, hf2.trans hf1, hs2.trans hs1⟩

/-- Witness of the C18 theorem: two toggles at step 5 leave `final_items` as it was. -/
theorem final_items_frozen_witness :
    ∃ d2, (runSteps
      [ (⟨"2024-01-01T08:00:00.000Z", 0⟩, postbackEvent "U1" "T1" "action=toggle_item&val=I1"),
        (⟨"2024-01-01T08:00:00.000Z", 1⟩, postbackEvent "U1" "T2" "action=toggle_item&val=I3") ]
      { emptyWorld with
        states := upd emptyWorld.states "U1"
          (some [("step", .num 5), ("temp_items", .arr [some "I2"]),
                 ("final_items", .str "I2")]) }).states "U1" = some d2 ∧
      field d2 "final_items" =
        field [("step", .num 5), ("temp_items", .arr [some "I2"]),
               ("final_items", .str "I2")] "final_items" ∧
      field d2 "step" =
        field [("step", .num 5), ("temp_items", .arr [some "I2"]),
               ("final_items", .str "I2")] "step" :=
  final_items_frozen _ _ "U1" _
    (by
      intro s hs
      simp only [List.mem_cons, List.mem_singleton, List.not_mem_nil, or_false] at hs
      rcases hs with hs | hs <;> subst hs <;>
        exact ⟨⟨_, _, rfl⟩, by decide, by decide⟩)
    (by decide)

/-- C19: whenever `handleEvent` issues a partial-merge update while handling an event
against the store it read at its start, the update is on the state document of the
event's user and that document exists in the store; so no run of `handleEvent`
ends in the fails-if-absent error of the merge. -/
theorem merge_precondition (env : Env) (event : Event) (w : World) :
    (∀ (u : String) (patch : Doc), Op.stateUpdate u patch ∈ newOps env event w →
      u = event.userId ∧ ∃ d0, w.states u = some d0) ∧
    (handleEvent env event w).error ≠ some .notFound := by
  have ht := handleEvent_transition env event w
  unfold newOps
  generalize handleEvent env event w = out at ht ⊢
  cases ht with
  | silent e he => exact ⟨fun u patch hmem => by simp at hmem, he⟩
  | toggled d0 l0 item m ha hs htruthy hl =>
    refine ⟨fun u patch hmem => ?_, by simp⟩
    simp at hmem
    rw [hmem.1]
    exact ⟨rfl, d0, hs⟩
  | rejectedUpdate d0 l0 item ha hs htruthy hl =>
    refine ⟨fun u patch hmem => ?_, by simp⟩
    simp at hmem
    rw [hmem.1]
    exact ⟨rfl, d0, hs⟩
  | confirmed d0 finalItems m ha hs htruthy =>
    refine ⟨fun u patch hmem => ?_, by simp⟩
    simp at hmem
    rw [hmem.1]
    exact ⟨rfl, d0, hs⟩
  | _ => exact ⟨fun u patch hmem => by simp at hmem, by simp⟩

/-- Witness of the C19 theorem: the toggle of the end-to-end scenario updates an existing document. -/
theorem merge_precondition_witness :
    "U1" = (postbackEvent "U1" "T1" "action=toggle_item&val=I1").userId ∧
    ∃ d0, ({ emptyWorld with
        states := upd emptyWorld.states "U1"
          (some [("step", .num 4), ("temp_items", .arr [])]) } : World).states "U1" = some d0 :=
  (merge_precondition ⟨"2024-01-01T08:00:00.000Z", 0⟩
    (postbackEvent "U1" "T1" "action=toggle_item&val=I1")
    { emptyWorld with
      states := upd emptyWorld.states "U1"
        (some [("step", .num 4), ("temp_items", .arr [])]) }).1 "U1"
    [("temp_items", .arr [some "I1"])] (by decide)

theorem toggleItem_nodup {α : Type} [DecidableEq α] (x : α) (l : List α) (h : l.Nodup) :
    (toggleItem x l).Nodup ∧
    (x ∈ l → (toggleItem x l).length = l.length - 1) ∧
    (x ∉ l → (toggleItem x l).length = l.length + 1) := by
  rw [toggleItem_eq]
  by_cases hx : x ∈ l
  · rw [if_pos hx]
    exact ⟨h.erase x, fun _ => List.length_erase_of_mem hx, fun hn => absurd hx hn⟩
  · rw [if_neg hx]
    refine ⟨?_, fun hp => absurd hp hx, fun _ => by simp⟩
    rw [List.nodup_append]
    refine ⟨h, List.nodup_singleton x, ?_⟩
    intro a ha hb
    simp only [List.mem_singleton] at hb
    subst hb
    exact hx ha

theorem select_cat_outcome (env : Env) (event : Event) (w : World)
    (hsel : actionOf event = some "select_cat")
    (hok : (handleEvent env event w).error = none) :
    ∃ d, (handleEvent env event w).world.states event.userId = some d ∧
      field d "temp_items" = .arr [] := by
  obtain ⟨userId, tok, body⟩ := event
  cases body with
  | other => simp [actionOf] at hsel
  | textMessage raw => simp [actionOf] at hsel
  | postback data params =>
    cases hparse : parseQueryString data with
    | error e => simp [actionOf, hparse] at hsel
    | ok payload =>
      have hact : payload.lookup "action" = some "select_cat" := by
        simpa [actionOf, hparse] using hsel
      cases hval : payload.lookup "val" with
      | none =>
        simp [handleEvent, hparse, handlePostback, hact, hval, ofOpt, andThen, stateSet,
          storableDoc, storable] at hok
      | some cat =>
        refine ⟨[("step", .num 4), ("location", .str (orElse (payload.lookup "loc") "未知")),
          ("date", .str (orElse (payload.lookup "date") "未知")), ("category", .str cat),
          ("temp_items", .arr [])], ?_, by simp [field, List.lookup]⟩
        simp [handleEvent, hparse, handlePostback, hact, hval, ofOpt, andThen, stateSet,
          storableDoc, storable, replyItemMenu, replyMessage, logOp, upd]

theorem toggle_keeps_nodup (env : Env) (event : Event) (w : World) (u : String) (d : Doc)
    (xs : List (Option String))
    (htog : actionOf event = some "toggle_item")
    (hstate : w.states u = some d) (htemp : field d "temp_items" = .arr xs)
    (hnd : xs.Nodup) :
    ∃ d2 ys, (handleEvent env event w).world.states u = some d2 ∧
      field d2 "temp_items" = .arr ys ∧ ys.Nodup := by
  have ht := handleEvent_transition env event w
  generalize handleEvent env event w = out at ht ⊢
  cases ht with
  | silent e he => exact ⟨d, xs, hstate, htemp, hnd⟩
  | replied m => exact ⟨d, xs, hstate, htemp, hnd⟩
  | rejectedSet d1 ha => exact ⟨d, xs, hstate, htemp, hnd⟩
  | rejectedUpdate d0 l0 item ha hs htruthy hl => exact ⟨d, xs, hstate, htemp, hnd⟩
  | rejectedAdd raw r hb => exact ⟨d, xs, hstate, htemp, hnd⟩
  | selected loc date cat m ha =>
    rw [htog] at ha
    exact absurd ha (by decide)
  | confirmed d0 finalItems m ha hs htruthy =>
    rw [htog] at ha
    exact absurd ha (by decide)
  | registering raw m hb hu0 => simp [actionOf, hb] at htog
  | registered raw d0 profile m hb hs hr => simp [actionOf, hb] at htog
  | recorded raw d0 now m hb hs h5 hst => simp [actionOf, hb] at htog
  | toggled d0 l0 item m ha hs htruthy hl =>
    by_cases hu : u = event.userId
    · subst hu
      rw [hs] at hstate
      cases hstate
      rw [htemp] at hl
      simp only [currentListOf, Option.some.injEq] at hl
      subst hl
      refine ⟨mergeDoc d [("temp_items", .arr (toggleItem item xs))], toggleItem item xs,
        by simp [upd], ?_, (toggleItem_nodup item xs hnd).1⟩
      rw [field_merge_temp]
      simp
    · exact ⟨d, xs, by simp [upd, hu, hstate], htemp, hnd⟩

/-- C20: the toggle keeps a duplicate-free list duplicate-free and changes its
length by exactly one (one less when the item was in the list, one more when it
was not); hence after a successful `select_cat` event followed by any number of
`toggle_item` events, the `temp_items` of the user's state has no repeated item. -/
theorem temp_items_duplicate_free :
    (∀ (α : Type) [DecidableEq α] (x : α) (l : List α), l.Nodup →
      (toggleItem x l).Nodup ∧
      (x ∈ l → (toggleItem x l).length = l.length - 1) ∧
      (x ∉ l → (toggleItem x l).length = l.length + 1)) ∧
    (∀ (env0 : Env) (e0 : Event) (steps : List (Env × Event)) (w0 : World),
      actionOf e0 = some "select_cat" → (handleEvent env0 e0 w0).error = none →
      (∀ s ∈ steps, actionOf s.2 = some "toggle_item") →
      ∃ d xs, (runSteps steps (handleEvent env0 e0 w0).world).states e0.userId = some d ∧
        field d "temp_items" = .arr xs ∧ xs.Nodup) := by
  refine ⟨fun α _ x l h => toggleItem_nodup x l h, ?_⟩
  intro env0 e0 steps w0 hsel hok htog
  obtain ⟨d, hd, htemp⟩ := select_cat_outcome env0 e0 w0 hsel hok
  have key : ∀ (steps : List (Env × Event)) (w : World) (d : Doc) (xs : List (Option String)),
      (∀ s ∈ steps, actionOf s.2 = some "toggle_item") →
      w.states e0.userId = some d → field d "temp_items" = .arr xs → xs.Nodup →
      ∃ d2 ys, (runSteps steps w).states e0.userId = some d2 ∧
        field d2 "temp_items" = .arr ys ∧ ys.Nodup := by
    intro steps
    induction steps with
    | nil =>
      intro w d xs _ hs ht hn
      exact ⟨d, xs, hs, ht, hn⟩
    | cons s rest ih =>
      intro w d xs hall hs ht hn
      obtain ⟨d1, ys, hs1, ht1, hn1⟩ :=
        toggle_keeps_nodup s.1 s.2 w e0.userId d xs (hall s (List.mem_cons_self s rest))
          hs ht hn
      exact ih _ d1 ys (fun t htm => hall t (List.mem_cons_of_mem s htm)) hs1 ht1 hn1
  exact key steps _ d [] htog hd htemp List.nodup_nil

/-- Witness of the C20 theorem: toggling `A` out of the duplicate-free `[A, B]` leaves a
duplicate-free list that is one item shorter. -/
theorem temp_items_duplicate_free_witness :
    (toggleItem (some "A") [some "A", some "B"]).Nodup ∧
    (some "A" ∈ [some "A", some "B"] →
      (toggleItem (some "A") [some "A", some "B"]).length = [some "A", some "B"].length - 1) ∧
    (some "A" ∉ [some "A", some "B"] →
      (toggleItem (some "A") [some "A", some "B"]).length = [some "A", some "B"].length + 1) :=
  temp_items_duplicate_free.1 (Option String) (some "A") [some "A", some "B"] (by decide)

/-! ## The batch handler -/

theorem promiseAll_fulfilled (promises : List Settled) (order : List Nat)
    (h : ∀ p ∈ promises, p = .fulfilled) : promiseAll promises order = .fulfilled := by
  unfold promiseAll
  have hnone : order.findSome? (fun i =>
      match promises.get? i with
      | some (.rejected err) => some err
      | _ => none) = none := by
    rw [List.findSome?_eq_none_iff]
    intro i _
    cases hp : promises.get? i with
    | none => rfl
    | some p =>
      have hmem : p ∈ promises := List.get?_mem hp
      rw [h p hmem]
  rw [hnone]

theorem promiseAll_rejected (promises : List Settled) (order : List Nat)
    (hall : ∀ i, i < promises.length → i ∈ order)
    (h : ∃ p ∈ promises, p ≠ .fulfilled) :
    ∃ err, .rejected err ∈ promises ∧ promiseAll promises order = .rejected err := by
  unfold promiseAll
  obtain ⟨p, hp, hne⟩ := h
  obtain ⟨i, hget⟩ := List.mem_iff_get?.mp hp
  have hi : i < promises.length := by
    by_contra hge
    rw [List.get?_eq_none.mpr (Nat.le_of_not_lt hge)] at hget
    cases hget
  have hsome : (order.findSome? (fun i =>
      match promises.get? i with
      | some (.rejected err) => some err
      | _ => none)).isSome = true := by
    rw [List.findSome?_isSome_iff]
    refine ⟨i, hall i hi, ?_⟩
    rw [hget]
    cases p with
    | fulfilled => exact absurd rfl hne
    | rejected err => rfl
  cases hfind : order.findSome? (fun i =>
      match promises.get? i with
      | some (.rejected err) => some err
      | _ => none) with
  | none =>
    rw [hfind] at hsome
    cases hsome
  | some err =>
    refine ⟨err, ?_, rfl⟩
    obtain ⟨j, _, hj⟩ := List.exists_of_findSome?_eq_some hfind
    cases hq : promises.get? j with
    | none =>
      rw [hq] at hj
      cases hj
    | some q =>
      rw [hq] at hj
      cases q with
      | fulfilled => cases hj
      | rejected e2 =>
        simp only [Option.some.injEq] at hj
        subst hj
        exact List.get?_mem hq

/-- C15 (as stated, refuted): for the one-event batch whose postback data is
`action=toggle_item&val=%E0%A4%A`, the handling of the event throws and the
handler answers with status 500 and the error's message, not with `200 OK`. -/
theorem handler_answers_500_on_failure :
    settleOf (handleEvent ⟨"2024-01-01T08:00:00.000Z", 0⟩
      (postbackEvent "U1" "T1" "action=toggle_item&val=%E0%A4%A") emptyWorld) =
      .rejected .uriError ∧
    handler "POST" [postbackEvent "U1" "T1" "action=toggle_item&val=%E0%A4%A"]
      (fun e => settleOf (handleEvent ⟨"2024-01-01T08:00:00.000Z", 0⟩ e emptyWorld)) [0] =
      ⟨500, .messageOf .uriError⟩ ∧
    (⟨500, .messageOf .uriError⟩ : Response) ≠ ⟨200, .text "OK"⟩ := by
  decide

/-- C15 (amended): for every POST batch in which every started handling settles:
one handling is started per event of the batch, whatever the outcome of its
siblings; the handler answers `200 OK` when every handling succeeds, and when
some handling fails it answers with status 500 and the message of the error of a
failed event. -/
theorem handler_response (method : String) (events : List Event) (handle : Event → Settled)
    (order : List Nat)
    (hpost : method ≠ "GET")
    (hall : ∀ i, i < events.length → i ∈ order) :
    (∀ i : Nat, (startAll events handle)[i]? = (events[i]?).map handle) ∧
    ((∀ e ∈ events, handle e = .fulfilled) →
      handler method events handle order = ⟨200, .text "OK"⟩) ∧
    ((∃ e ∈ events, handle e ≠ .fulfilled) →
      ∃ e ∈ events, ∃ err, handle e = .rejected err ∧
        handler method events handle order = ⟨500, .messageOf err⟩) := by
  refine ⟨fun i => by simp [startAll], ?_, ?_⟩
  · intro hok
    have hful : promiseAll (startAll events handle) order = .fulfilled := by
      apply promiseAll_fulfilled
      intro p hp
      obtain ⟨e, he, rfl⟩ := List.mem_map.mp hp
      exact hok e he
    simp [handler, hpost, hful]
  · intro hbad
    obtain ⟨e, he, hne⟩ := hbad
    have hlen : events.length > 0 := List.length_pos_of_mem he
    obtain ⟨err, hmem, hrej⟩ := promiseAll_rejected (startAll events handle) order
      (by simpa [startAll] using hall) ⟨handle e, List.mem_map_of_mem handle he, hne⟩
    obtain ⟨e2, he2, hh⟩ := List.mem_map.mp hmem
    exact ⟨e2, he2, err, hh, by simp [handler, hpost, hlen, hrej]⟩

/-- Witness of the C15 theorem: a batch of two events, both handled with success, is answered `200 OK`. -/
theorem handler_response_witness :
    handler "POST"
      [textEvent "U1" "T1" "實績回報", textEvent "U2" "T2" "實績回報"]
      (fun e => settleOf (handleEvent ⟨"2024-01-01T08:00:00.000Z", 0⟩ e emptyWorld)) [1, 0] =
      ⟨200, .text "OK"⟩ :=
  (handler_response "POST" [textEvent "U1" "T1" "實績回報", textEvent "U2" "T2" "實績回報"]
    (fun e => settleOf (handleEvent ⟨"2024-01-01T08:00:00.000Z", 0⟩ e emptyWorld)) [1, 0]
    (by decide) (by decide)).2.1 (by decide)

/-! ## Round trip of the button data -/

theorem splitOnChar_append_sep (sep : Char) (a b : List Char) (h : ∀ c ∈ a, c ≠ sep) :
    splitOnChar sep (a ++ sep :: b) = a :: splitOnChar sep b := by
  induction a with
  | nil => simp [splitOnChar]
  | cons c rest ih =>
    have hc : c ≠ sep := h c (List.mem_cons_self c rest)
    have hrest : ∀ x ∈ rest, x ≠ sep := fun x hx => h x (List.mem_cons_of_mem c hx)
    simp [splitOnChar, hc, ih hrest]

/-- The segment `k=v` of a query string. -/
theorem jsSplit_segment (k v : String) (hk : ∀ c ∈ k.data, c ≠ '=')
    (hv : ∀ c ∈ v.data, c ≠ '=') :
    jsSplit '=' (String.mk (k.data ++ '=' :: v.data)) = [k, v] := by
  simp [jsSplit, splitOnChar_append_sep '=' k.data v.data hk, splitOnChar_absent '=' v.data hv]

theorem parseLoop_segments (pairs : List (String × String))
    (hk : ∀ p ∈ pairs, (∀ c ∈ p.1.data, c ≠ '=') ∧ p.1 ≠ "__proto__")
    (hv : ∀ p ∈ pairs, plainText p.2) :
    ∀ result : Payload,
      parseLoop (pairs.map (fun p => String.mk (p.1.data ++ '=' :: p.2.data))) result =
        .ok (pairs.foldl (fun acc p => assign p.1 p.2 acc) result) := by
  induction pairs with
  | nil =>
    intro result
    rfl
  | cons p rest ih =>
    intro result
    obtain ⟨hk1, hk2⟩ := hk p (List.mem_cons_self p rest)
    have hv1 := hv p (List.mem_cons_self p rest)
    simp only [List.map_cons, List.foldl_cons]
    unfold parseLoop
    rw [jsSplit_segment p.1 p.2 hk1 (fun c hc => (hv1 c hc).2.1)]
    simp only []
    rw [decodeURIComponent_plain p.2 (fun c hc => (hv1 c hc).2.2)]
    simp only [setProperty, hk2, if_false]
    exact ih (fun q hq => hk q (List.mem_cons_of_mem p hq))
      (fun q hq => hv q (List.mem_cons_of_mem p hq)) _

theorem splitOnChar_queryData (pairs : List (String × String)) (hne : pairs ≠ [])
    (h : ∀ p ∈ pairs, (∀ c ∈ p.1.data, c ≠ '&') ∧ (∀ c ∈ p.2.data, c ≠ '&')) :
    splitOnChar '&' (queryData pairs) = pairs.map (fun p => p.1.data ++ '=' :: p.2.data) := by
  induction pairs with
  | nil => exact absurd rfl hne
  | cons p rest ih =>
    obtain ⟨hk, hv⟩ := h p (List.mem_cons_self p rest)
    have hseg : ∀ c ∈ p.1.data ++ '=' :: p.2.data, c ≠ '&' := by
      intro c hc
      rcases List.mem_append.mp hc with hc | hc
      · exact hk c hc
      · rcases List.mem_cons.mp hc with hc | hc
        · rw [hc]
          decide
        · exact hv c hc
    cases rest with
    | nil =>
      obtain ⟨k, v⟩ := p
      simp only [queryData, List.map_cons, List.map_nil]
      exact splitOnChar_absent '&' _ hseg
    | cons q rest2 =>
      obtain ⟨k, v⟩ := p
      have ih2 := ih (by simp) (fun r hr => h r (List.mem_cons_of_mem _ hr))
      simp only [queryData, List.map_cons] at ih2 ⊢
      have hshape : k.data ++ '=' :: v.data ++ '&' :: queryData (q :: rest2) =
          (k.data ++ '=' :: v.data) ++ '&' :: queryData (q :: rest2) := by simp
      rw [hshape, splitOnChar_append_sep '&' _ _ hseg, ih2]

theorem parseQueryString_queryData (pairs : List (String × String)) (hne : pairs ≠ [])
    (hk : ∀ p ∈ pairs, plainText p.1 ∧ p.1 ≠ "__proto__")
    (hv : ∀ p ∈ pairs, plainText p.2) :
    parseQueryString (some (String.mk (queryData pairs))) =
      .ok (pairs.foldl (fun acc p => assign p.1 p.2 acc) []) := by
  have hq : String.mk (queryData pairs) ≠ "" := by
    intro h0
    have hd : queryData pairs = [] := congrArg String.data h0
    cases pairs with
    | nil => exact hne rfl
    | cons p rest =>
      obtain ⟨k, v⟩ := p
      cases rest with
      | nil => simp [queryData] at hd
      | cons q rest2 => simp [queryData] at hd
  unfold parseQueryString
  simp only [hq, if_false]
  have hsplit : jsSplit '&' (String.mk (queryData pairs)) =
      pairs.map (fun p => String.mk (p.1.data ++ '=' :: p.2.data)) := by
    unfold jsSplit
    rw [splitOnChar_queryData pairs hne
      (fun p hp => ⟨fun c hc => ((hk p hp).1 c hc).1, fun c hc => (hv p hp c hc).1⟩)]
    simp [List.map_map, Function.comp_def]
  rw [hsplit]
  exact parseLoop_segments pairs
    (fun p hp => ⟨fun c hc => ((hk p hp).1 c hc).2.1, (hk p hp).2⟩) hv []

theorem digit_plain (date : String) (h : ∀ c ∈ date.data, c.isDigit = true) :
    plainText date := by
  intro c hc
  have hd := h c hc
  refine ⟨?_, ?_, ?_⟩ <;>
  · intro hbad
    rw [hbad] at hd
    exact absurd hd (by decide)

theorem buttonData_itemButton (selectedList : List (Option String)) (opt : String) :
    buttonData (itemButton selectedList opt) = some ("action=toggle_item&val=" ++ opt) := by
  simp [itemButton, buttonData]

theorem filterMap_some {α β : Type} (f : α → β) (l : List α) :
    l.filterMap (fun a => some (f a)) = l.map f := by
  induction l with
  | nil => rfl
  | cons a rest ih => simp [List.filterMap_cons, ih]

theorem parse_action_val (a opt : String) (ha : plainText a) (ho : plainText opt) :
    parseQueryString (some (String.mk (queryData [("action", a), ("val", opt)]))) =
      .ok [("action", a), ("val", opt)] := by
  rw [parseQueryString_queryData _ (by simp)]
  · simp [assign]
  · intro p hp
    simp only [List.mem_cons, List.mem_singleton, List.not_mem_nil, or_false] at hp
    rcases hp with hp | hp <;> subst hp <;> dsimp only <;> exact ⟨by decide, by decide⟩
  · intro p hp
    simp only [List.mem_cons, List.mem_singleton, List.not_mem_nil, or_false] at hp
    rcases hp with hp | hp <;> subst hp
    · exact ha
    · exact ho

theorem parse_select_cat (loc date opt : String) (hl : plainText loc) (hd : plainText date)
    (ho : plainText opt) :
    parseQueryString (some (String.mk (queryData
      [("action", "select_cat"), ("loc", loc), ("date", date), ("val", opt)]))) =
      .ok [("action", "select_cat"), ("loc", loc), ("date", date), ("val", opt)] := by
  rw [parseQueryString_queryData _ (by simp)]
  · simp [assign]
  · intro p hp
    simp only [List.mem_cons, List.mem_singleton, List.not_mem_nil, or_false] at hp
    rcases hp with hp | hp | hp | hp <;> subst hp <;> dsimp only <;>
      exact ⟨by decide, by decide⟩
  · intro p hp
    simp only [List.mem_cons, List.mem_singleton, List.not_mem_nil, or_false] at hp
    rcases hp with hp | hp | hp | hp <;> subst hp
    · decide
    · exact hl
    · exact hd
    · exact ho

/-- C16: the option lists are those of the source: nine locations, fourteen
options for the category `青年會行事/活動(含VTR)` and twenty for every other
category.  The `data` strings of the buttons of the three menus are, in order,
the action of the menu with `val` set to each option of the list (and `loc`,
`date` set to the values the category menu was seeded with), so every option has
its button; and `parseQueryString` maps the data of each button back to exactly
that action, that option as `val`, and those `loc` and `date`, for every option
of the lists, every `loc` of the location list and every date of eight digits,
whatever the category and the selected list. -/
theorem menu_round_trip :
    (menuData locationMenu =
        locationOptions.map (fun opt => "action=select_loc&val=" ++ opt) ∧
      ∀ opt ∈ locationOptions,
        parseQueryString (some ("action=select_loc&val=" ++ opt)) =
          .ok [("action", "select_loc"), ("val", opt)]) ∧
    (∀ loc ∈ locationOptions, ∀ date : String, date.data.length = 8 →
      (∀ c ∈ date.data, c.isDigit = true) →
      menuData (categoryMenu loc date) =
        ["青年會行事/活動(含VTR)", "個人實踐項目 (可複選)"].map (fun opt =>
          "action=select_cat&loc=" ++ loc ++ "&date=" ++ date ++ "&val=" ++ opt) ∧
      ∀ opt ∈ ["青年會行事/活動(含VTR)", "個人實踐項目 (可複選)"],
        parseQueryString
          (some ("action=select_cat&loc=" ++ loc ++ "&date=" ++ date ++ "&val=" ++ opt)) =
          .ok [("action", "select_cat"), ("loc", loc), ("date", date), ("val", opt)]) ∧
    (∀ (category : JsVal) (selectedList : List (Option String)),
      menuData (itemMenu category selectedList) =
        (itemOptions category).map (fun opt => "action=toggle_item&val=" ++ opt) ++
          ["action=confirm_items"]) ∧
    (∀ opt ∈ activityOptions ++ practiceOptions,
      parseQueryString (some ("action=toggle_item&val=" ++ opt)) =
        .ok [("action", "toggle_item"), ("val", opt)]) ∧
    locationOptions =
      ["台灣本部", "中壢佈教所", "台中佈教所", "高雄佈教所", "雲林集會所", "花蓮集會所",
       "線上參加(直播)", "線上參加(VTR)", "其他"] ∧
    itemOptions (.str "青年會行事/活動(含VTR)") =
      ["回歸聖地親苑", "6/9靈尊教導院祈念未來", "7/2靈尊真導院祈念未來", "8/6真如靈祖祈念未來",
       "7/19真如開祖祈念未來", "夏期鍊成第一天(8-9月)", "夏期鍊成第二天(9-10月)", "演講大會(9-10月)",
       "蛇瀧研修說明會(11-12月)", "青年經親說明會(12-1月)", "幹部委員說明會(12-1月)",
       "蛇瀧研修實績確認者說明會", "親子一體運動會", "其他"] ∧
    (∀ category : JsVal, category ≠ .str "青年會行事/活動(含VTR)" →
      itemOptions category =
        ["度眾", "歡喜", "奉侍", "舉辦青年家庭集會", "參加集會", "接心", "參加法會", "參加青年會合",
         "參加會座(初座/菩提會/本會座)", "參加幹部委員研修", "參加青年經親研修", "參加幹部會合",
         "參加部門會合", "參加信仰心向上會合", "拜讀一如之道究道篇(全)", "拜讀真如苑歷史", "參加總部會",
         "參加總部會會後會", "回歸聖地親苑", "其他"]) ∧
    (∀ (category : JsVal) (selectedList : List (Option String)), ∀ opt ∈ itemOptions category,
      ("action=toggle_item&val=" ++ opt) ∈ menuData (itemMenu category selectedList) ∧
      parseQueryString (some ("action=toggle_item&val=" ++ opt)) =
        .ok [("action", "toggle_item"), ("val", opt)]) := by
  have hloc : ∀ opt ∈ locationOptions, plainText opt := by decide
  have hitem : ∀ opt ∈ activityOptions ++ practiceOptions, plainText opt := by decide
  have hcat : ∀ opt ∈ ["青年會行事/活動(含VTR)", "個人實踐項目 (可複選)"], plainText opt := by
    decide
  have hmenu : ∀ (category : JsVal) (selectedList : List (Option String)),
      menuData (itemMenu category selectedList) =
        (itemOptions category).map (fun opt => "action=toggle_item&val=" ++ opt) ++
          ["action=confirm_items"] := by
    intro category selectedList
    simp only [menuData, itemMenu, List.filterMap_append, List.filterMap_map]
    have hf : (buttonData ∘ itemButton selectedList) =
        (fun opt => some ("action=toggle_item&val=" ++ opt)) := by
      funext opt
      exact buttonData_itemButton selectedList opt
    rw [hf, filterMap_some]
    simp [buttonData]
  have hparse : ∀ opt ∈ activityOptions ++ practiceOptions,
      parseQueryString (some ("action=toggle_item&val=" ++ opt)) =
        .ok [("action", "toggle_item"), ("val", opt)] := by
    intro opt hopt
    have e : "action=toggle_item&val=" ++ opt =
        String.mk (queryData [("action", "toggle_item"), ("val", opt)]) := rfl
    rw [e]
    exact parse_action_val "toggle_item" opt (by decide) (hitem opt hopt)
  refine ⟨⟨by decide, fun opt hopt => ?_⟩,
    fun loc hl date _ hdig => ⟨?_, fun opt hopt => ?_⟩,
    hmenu, hparse, rfl, by decide, fun category hne => ?_,
    fun category selectedList opt hopt => ⟨?_, hparse opt ?_⟩⟩
  · have e : "action=select_loc&val=" ++ opt =
        String.mk (queryData [("action", "select_loc"), ("val", opt)]) := rfl
    rw [e]
    exact parse_action_val "select_loc" opt (by decide) (hloc opt hopt)
  · simp [menuData, categoryMenu, buttonData, String.append_assoc]
  · have e : "action=select_cat&loc=" ++ loc ++ "&date=" ++ date ++ "&val=" ++ opt =
        String.mk (queryData
          [("action", "select_cat"), ("loc", loc), ("date", date), ("val", opt)]) := by
      apply String.ext
      simp [queryData, String.data_append]
    rw [e]
    exact parse_select_cat loc date opt (hloc loc hl) (digit_plain date hdig) (hcat opt hopt)
  · unfold itemOptions
    rw [if_neg hne]
    rfl
  · rw [hmenu]
    exact List.mem_append_left _ (List.mem_map_of_mem _ hopt)
  · unfold itemOptions at hopt
    split at hopt
    · exact List.mem_append_left _ hopt
    · exact List.mem_append_right _ hopt

/-- Witness of the C16 theorem: the first category button seeded with the first location
and the date `20240101`. -/
theorem menu_round_trip_witness :
    parseQueryString
      (some ("action=select_cat&loc=" ++ "台灣本部" ++ "&date=" ++ "20240101" ++ "&val=" ++
        "青年會行事/活動(含VTR)")) =
      .ok [("action", "select_cat"), ("loc", "台灣本部"), ("date", "20240101"),
           ("val", "青年會行事/活動(含VTR)")] :=
  (menu_round_trip.2.1 "台灣本部" (by decide) "20240101" (by decide) (by decide)).2
    "青年會行事/活動(含VTR)" (by decide)

end Webhook
